import Mathlib

/-!
Verification development for the llm-council stage-orchestration core.

Shallow embedding of:
- src/backend/openrouter.py   (query_model retry/status classification)
- src/backend/council.py      (parse_ranking_from_text, calculate_aggregate_rankings,
                               _format_template, render_stage_prompt, Council.run,
                               load_council, run_full_council)
- src/backend/metadata.py     (metadata dataclasses, hydration)

Machine integers do not occur; Python floats for wall-clock times are modelled
as rationals, Python ints as Nat/Int. Fallible code is modelled in Except.
External collaborators (the HTTP client, the json stdlib module, logging) are
modelled as explicit parameters or event lists.
-/

namespace LlmCouncil

/-! ## openrouter.py: query_model

The HTTP attempt loop of query_model is modelled by a function from the attempt
number (starting at 1, as in the source where attempt is incremented at the top
of the loop) to the outcome of that attempt:
- success parsed: POST succeeded with 2xx; parsed is the extracted message
  (none when response.json()/choices indexing failed, which the outer handler
  turns into a None return);
- httpError status: raise_for_status raised httpx.HTTPStatusError;
- netError: the POST raised a non-HTTPStatusError exception (connect timeout
  etc.), caught by the outer handler, returning None.
Cancellation (asyncio.CancelledError) is a concurrency effect and is not
modelled. queryLoop models the inner while loop: its error 402 result models
the fastapi.HTTPException with status_code 402 raised inside the 402 branch
and propagating out of the loop. query_model wraps the loop in the outer try
of the function body: outerHandler models its trailing except Exception
clause, which catches every non-cancellation exception - and
fastapi.HTTPException is an Exception subclass, so it catches that raised
HTTPException too - and returns None. The caller therefore observes None for
402 exactly as for any other non-retried failure. Each result is paired with
the number of attempts that were executed. -/

structure QueryResp where
  content : Option String
  reasoning_details : Option String
deriving DecidableEq, Repr

inductive AttemptOutcome where
  | success (parsed : Option QueryResp)
  | httpError (status : Nat)
  | netError
deriving DecidableEq, Repr

def TRANSIENT_RETRY_STATUS_CODES : List Nat := [429, 502, 503]

def NO_RETRY_STATUS_CODES : List Nat := [400, 401, 403, 402]

def queryLoop (attempts : Nat → AttemptOutcome) (attempt : Nat) :
    Except Nat (Option QueryResp) × Nat :=
  match attempts attempt with
  | .success parsed => (.ok parsed, attempt)
  | .netError => (.ok none, attempt)
  | .httpError status =>
    if status = 402 then (.error 402, attempt)
    else if status ∈ [400, 401, 403] then (.ok none, attempt)
    else if h : status ∈ TRANSIENT_RETRY_STATUS_CODES ∧ attempt = 1 then
      queryLoop attempts (attempt + 1)
    else (.ok none, attempt)
termination_by 2 - attempt
decreasing_by
  obtain ⟨-, h2⟩ := h
  omega

def outerHandler (r : Except Nat (Option QueryResp) × Nat) :
    Option QueryResp × Nat :=
  match r with
  | (Except.ok v, n) => (v, n)
  | (Except.error _, n) => (none, n)

def query_model (attempts : Nat → AttemptOutcome) :
    Option QueryResp × Nat :=
  outerHandler (queryLoop attempts 1)

/-- Counterexample for C7: status 402 is NOT surfaced to the caller as a
distinct credits-exhausted error. The inner retry loop does raise the distinct
HTTPException without retrying (queryLoop yields error 402 after one attempt),
but the trailing except Exception clause of query_model itself catches that
exception and returns None, so a 402 call returns the very same value
(none, 1) as a generic no-retry failure such as 400: nothing distinct reaches
the caller. -/
theorem query_model_402_counterexample_C7 :
    queryLoop (fun _ => AttemptOutcome.httpError 402) 1 = (.error 402, 1) ∧
    query_model (fun _ => AttemptOutcome.httpError 402) = (none, 1) ∧
    query_model (fun _ => AttemptOutcome.httpError 400) = (none, 1) := by
  have h402 : queryLoop (fun _ => AttemptOutcome.httpError 402) 1 = (.error 402, 1) := by
    rw [queryLoop]
    simp
  have h400 : queryLoop (fun _ => AttemptOutcome.httpError 400) 1 = (.ok none, 1) := by
    rw [queryLoop]
    simp
  refine ⟨h402, ?_, ?_⟩
  · rw [query_model, h402]
    rfl
  · rw [query_model, h400]
    rfl

/-- C7 (amended): query_model classifies upstream HTTP failure statuses: on
402 the inner loop raises the distinct credits-exhausted HTTPException without
retry, but the trailing except Exception clause of query_model itself catches
it and returns None, so the caller observes a generic failed call; 400/401/403
yield a failed call (None) without retry; 429/502/503 are retried exactly
once, so a 503 followed by success yields the successful result on attempt 2
while two transient failures in a row yield a failed call after exactly 2
attempts; any other failure status yields a failed call without retry. -/
theorem query_model_status_classification_C7 (attempts : Nat → AttemptOutcome) :
    (attempts 1 = .httpError 402 →
      queryLoop attempts 1 = (.error 402, 1) ∧ query_model attempts = (none, 1)) ∧
    (∀ s, s ∈ [400, 401, 403] → attempts 1 = .httpError s →
      query_model attempts = (none, 1)) ∧
    (∀ s parsed, s ∈ TRANSIENT_RETRY_STATUS_CODES → attempts 1 = .httpError s →
      attempts 2 = .success parsed → query_model attempts = (parsed, 2)) ∧
    (∀ s s2, s ∈ TRANSIENT_RETRY_STATUS_CODES → s2 ∈ TRANSIENT_RETRY_STATUS_CODES →
      attempts 1 = .httpError s → attempts 2 = .httpError s2 →
      query_model attempts = (none, 2)) ∧
    (∀ s, attempts 1 = .httpError s → s ≠ 402 → s ∉ [400, 401, 403] →
      s ∉ TRANSIENT_RETRY_STATUS_CODES → query_model attempts = (none, 1)) := by
  refine ⟨?_, ?_, ?_, ?_, ?_⟩
  · intro h
    have hq : queryLoop attempts 1 = (.error 402, 1) := by
      rw [queryLoop, h]
      simp
    exact ⟨hq, by rw [query_model, hq]; rfl⟩
  · intro s hs h
    have hq : queryLoop attempts 1 = (.ok none, 1) := by
      rw [queryLoop, h]
      fin_cases hs <;> simp
    rw [query_model, hq]
    rfl
  · intro s parsed hs h1 h2
    have hq : queryLoop attempts 1 = (.ok parsed, 2) := by
      rw [queryLoop, h1]
      fin_cases hs <;>
        · simp only [TRANSIENT_RETRY_STATUS_CODES]
          rw [if_neg (by decide), if_neg (by decide), dif_pos (by simp), queryLoop, h2]
    rw [query_model, hq]
    rfl
  · intro s s2 hs hs2 h1 h2
    have hq : queryLoop attempts 1 = (.ok none, 2) := by
      rw [queryLoop, h1]
      fin_cases hs <;>
        · simp only [TRANSIENT_RETRY_STATUS_CODES]
          rw [if_neg (by decide), if_neg (by decide), dif_pos (by simp), queryLoop, h2]
          fin_cases hs2 <;>
            · simp only [TRANSIENT_RETRY_STATUS_CODES]
              rw [if_neg (by decide), if_neg (by decide), dif_neg (by simp)]
    rw [query_model, hq]
    rfl
  · intro s h hne h403 htr
    have hq : queryLoop attempts 1 = (.ok none, 1) := by
      rw [queryLoop, h]
      simp [hne, h403, htr]
    rw [query_model, hq]
    rfl

/-- Witness for C7: concrete runs through the theorem. A call that gets 503
once and then succeeds returns the successful result after 2 attempts; a call
that gets 503 twice fails after exactly 2 attempts; a 402 raises the distinct
HTTPException inside the loop but query_model still returns None after one
attempt. -/
theorem query_model_status_classification_C7_witness :
    query_model (fun n => if n = 1 then .httpError 503
        else .success (some ⟨some "ok", none⟩)) = (some ⟨some "ok", none⟩, 2) ∧
    query_model (fun _ => .httpError 503) = (none, 2) ∧
    (queryLoop (fun _ => AttemptOutcome.httpError 402) 1 = (.error 402, 1) ∧
      query_model (fun _ => AttemptOutcome.httpError 402) = (none, 1)) := by
  refine ⟨?_, ?_, ?_⟩
  · exact (query_model_status_classification_C7 _).2.2.1 503 _ (by decide) (by decide) (by decide)
  · exact (query_model_status_classification_C7 _).2.2.2.1 503 503 (by decide) (by decide)
      (by decide) (by decide)
  · exact (query_model_status_classification_C7 _).1 (by decide)

/-! ## council.py: parse_ranking_from_text

The parser uses two Python regexes, "Response [A-Z]" and
"\d+\.\s*Response [A-Z]", via re.findall (non-overlapping, left to right), and
str.split("FINAL RANKING:"). Backtracking never changes the outcome for these
patterns (a shorter greedy run is always followed by a character of the same
class, which cannot match the next literal), so maximal-munch scanning below is
exact. Char.isUpper is exactly the class [A-Z]. isPySpace is the ASCII part of
the regex class \s; non-ASCII whitespace is not modelled. -/

def isPySpace (c : Char) : Bool :=
  c = ' ' || c = '\t' || c = '\n' || c = '\r' || c = '\x0b' || c = '\x0c'

def startsWithChars : List Char → List Char → Bool
  | [], _ => true
  | _ :: _, [] => false
  | c :: cs, d :: ds => c = d && startsWithChars cs ds

/-- Index of the first occurrence of needle in hay, if any. -/
def findSub (needle : List Char) : List Char → Option Nat
  | [] => if startsWithChars needle [] then some 0 else none
  | c :: t =>
    if startsWithChars needle (c :: t) then some 0
    else (findSub needle t).map (· + 1)

theorem startsWithChars_length {needle hay : List Char}
    (h : startsWithChars needle hay = true) : needle.length ≤ hay.length := by
  induction needle generalizing hay with
  | nil => simp
  | cons c cs ih =>
    cases hay with
    | nil => simp [startsWithChars] at h
    | cons d ds =>
      simp only [startsWithChars, Bool.and_eq_true] at h
      simpa using ih h.2

theorem findSub_le {needle hay : List Char} {i : Nat}
    (h : findSub needle hay = some i) : i + needle.length ≤ hay.length := by
  induction hay generalizing i with
  | nil =>
    simp only [findSub] at h
    split at h
    · simp only [Option.some_inj] at h
      subst h
      rename_i hsw
      have h0 := startsWithChars_length hsw
      simp only [List.length_nil] at h0 ⊢
      omega
    · simp at h
  | cons c t ih =>
    simp only [findSub] at h
    split at h
    · simp only [Option.some_inj] at h
      subst h
      rename_i hsw
      have h0 := startsWithChars_length hsw
      omega
    · simp only [Option.map_eq_some'] at h
      obtain ⟨j, hj, rfl⟩ := h
      have := ih hj
      simp only [List.length_cons]
      omega

theorem findSub_nil {needle : List Char} (h : needle ≠ []) :
    findSub needle [] = none := by
  cases needle with
  | nil => exact absurd rfl h
  | cons c cs => simp [findSub, startsWithChars]

/-! Python scanning loops below consume at least one character per iteration
but are not structurally recursive (they skip several characters at a match),
so each is written with an explicit character budget (fuel). The input length
is always a sufficient budget; an unfolding lemma recovers the natural loop
equation, and the fueled form reduces inside the kernel on concrete inputs. -/

/-- Python str.split(sep) for a non-empty separator: split on every
non-overlapping occurrence, left to right (fueled worker). -/
def pySplitF (sep : List Char) : Nat → List Char → List (List Char)
  | 0, l => [l]
  | fuel + 1, l =>
    if sep.isEmpty then [l]
    else
      match findSub sep l with
      | some i => l.take i :: pySplitF sep fuel (l.drop (i + sep.length))
      | none => [l]

def pySplit (sep : List Char) (l : List Char) : List (List Char) :=
  pySplitF sep l.length l

theorem pySplitF_congr {sep : List Char} (hsep : sep ≠ []) :
    ∀ fuel₁ fuel₂ l, l.length ≤ fuel₁ → l.length ≤ fuel₂ →
      pySplitF sep fuel₁ l = pySplitF sep fuel₂ l := by
  intro fuel₁
  induction fuel₁ with
  | zero =>
    intro fuel₂ l h1 _
    have : l = [] := by
      cases l with
      | nil => rfl
      | cons a t => simp at h1
    subst this
    cases fuel₂ with
    | zero => rfl
    | succ f => simp [pySplitF, findSub_nil hsep]
  | succ f ih =>
    intro fuel₂ l h1 h2
    cases fuel₂ with
    | zero =>
      have : l = [] := by
        cases l with
        | nil => rfl
        | cons a t => simp at h2
      subst this
      simp [pySplitF, findSub_nil hsep]
    | succ g =>
      simp only [pySplitF]
      split
      · rfl
      · rename_i hne
        cases hfind : findSub sep l with
        | none => rfl
        | some i =>
          have hle := findSub_le hfind
          have hsl : 1 ≤ sep.length := by
            cases sep with
            | nil => exact absurd rfl hsep
            | cons a t => simp
          have htail : (l.drop (i + sep.length)).length ≤ f := by
            simp only [List.length_drop]
            omega
          have htail2 : (l.drop (i + sep.length)).length ≤ g := by
            simp only [List.length_drop]
            omega
          simp [ih _ _ htail htail2]

/-- The loop equation for pySplit, as in the well-founded phrasing. -/
theorem pySplit_eq {sep : List Char} (hsep : sep ≠ []) (l : List Char) :
    pySplit sep l = match findSub sep l with
      | some i => l.take i :: pySplit sep (l.drop (i + sep.length))
      | none => [l] := by
  cases hl : l.length with
  | zero =>
    have : l = [] := by
      cases l with
      | nil => rfl
      | cons a t => simp at hl
    subst this
    simp [pySplit, pySplitF, findSub_nil hsep]
  | succ k =>
    unfold pySplit
    rw [hl]
    simp only [pySplitF]
    rw [if_neg (by simpa [List.isEmpty_iff] using hsep)]
    cases hfind : findSub sep l with
    | none => rfl
    | some i =>
      have hle := findSub_le hfind
      have hsl : 1 ≤ sep.length := by
        cases sep with
        | nil => exact absurd rfl hsep
        | cons a t => simp
      have htail : (l.drop (i + sep.length)).length ≤ k := by
        simp only [List.length_drop]
        omega
      simp [pySplit,
        pySplitF_congr hsep k (l.drop (i + sep.length)).length
          (l.drop (i + sep.length)) htail le_rfl]

theorem pySplitF_ne_nil (sep : List Char) (fuel : Nat) (l : List Char) :
    pySplitF sep fuel l ≠ [] := by
  cases fuel with
  | zero => simp [pySplitF]
  | succ f =>
    simp only [pySplitF]
    split
    · simp
    · split <;> simp

theorem pySplit_ne_nil (sep l : List Char) : pySplit sep l ≠ [] :=
  pySplitF_ne_nil sep l.length l

def responseLit : List Char := ("Response ").toList

/-- True when l begins with a match of the regex "Response [A-Z]". -/
def isResponseAt (l : List Char) : Bool :=
  startsWithChars responseLit l &&
    match l.drop 9 with
    | c :: _ => c.isUpper
    | [] => false

/-- re.findall("Response [A-Z]", text): all non-overlapping matches, in order.
Every match has length 10, so scanning resumes 10 characters later. -/
def findResponseTokensF : Nat → List Char → List String
  | 0, _ => []
  | _ + 1, [] => []
  | fuel + 1, c :: rest =>
    if isResponseAt (c :: rest) then
      String.mk ((c :: rest).take 10) :: findResponseTokensF fuel (rest.drop 9)
    else
      findResponseTokensF fuel rest

def findResponseTokens (l : List Char) : List String :=
  findResponseTokensF l.length l

/-- Length of a match of the regex "\d+\.\s*Response [A-Z]" starting at the
head of l, if any: a maximal run of digits, a dot, a maximal run of
whitespace, then "Response" and a capital letter. -/
def matchNumberedAt (l : List Char) : Option Nat :=
  let ds := l.takeWhile Char.isDigit
  if ds.isEmpty then none
  else
    match l.drop ds.length with
    | [] => none
    | c :: rest2 =>
      if c = '.' then
        let ws := rest2.takeWhile isPySpace
        if isResponseAt (rest2.drop ws.length) then
          some (ds.length + 1 + ws.length + 10)
        else none
      else none

theorem matchNumberedAt_pos {l : List Char} {n : Nat}
    (h : matchNumberedAt l = some n) : 0 < n := by
  simp only [matchNumberedAt] at h
  split at h
  · simp at h
  · split at h
    · simp at h
    · split at h
      · split at h
        · simp only [Option.some_inj] at h
          omega
        · simp at h
      · simp at h

/-- re.findall("\d+\.\s*Response [A-Z]", text): the full matches, in order
(fueled worker; a match consumes its own length, at least one character). -/
def findNumberedMatchesF : Nat → List Char → List (List Char)
  | 0, _ => []
  | _ + 1, [] => []
  | fuel + 1, c :: rest =>
    match matchNumberedAt (c :: rest) with
    | some n => (c :: rest).take n :: findNumberedMatchesF fuel ((c :: rest).drop n)
    | none => findNumberedMatchesF fuel rest

def findNumberedMatches (l : List Char) : List (List Char) :=
  findNumberedMatchesF l.length l

def FINAL_RANKING_MARKER : List Char := ("FINAL RANKING:").toList

/-- re.search("Response [A-Z]", m).group() for a numbered match m: the first
"Response <letter>" token inside m. A numbered match always ends with such a
token, so the Python code can never hit the None case here. -/
def extractResponseToken (m : List Char) : String :=
  (findResponseTokens m).headD ""

/-- Model of parse_ranking_from_text (council.py lines 606-622). -/
def parse_ranking_from_text (ranking_text : String) : List String :=
  let l := ranking_text.toList
  if (findSub FINAL_RANKING_MARKER l).isSome then
    let parts := pySplit FINAL_RANKING_MARKER l
    if 2 ≤ parts.length then
      let ranking_section := parts.getD 1 []
      let numbered := findNumberedMatches ranking_section
      if numbered.isEmpty then findResponseTokens ranking_section
      else numbered.map extractResponseToken
    else findResponseTokens l
  else findResponseTokens l

/-- The C3 claim's algorithm, following the claim's words: when the marker is
present, the tail is EVERYTHING after the first occurrence of the marker. -/
def parseRankingClaimC3 (ranking_text : String) : List String :=
  let l := ranking_text.toList
  match findSub FINAL_RANKING_MARKER l with
  | some i =>
    let tail := l.drop (i + FINAL_RANKING_MARKER.length)
    let numbered := findNumberedMatches tail
    if numbered.isEmpty then findResponseTokens tail
    else numbered.map extractResponseToken
  | none => findResponseTokens l

/-- The amended tail: the segment strictly between the first occurrence of the
marker and the following occurrence (or the end of the text). -/
def markerSection (l : List Char) : Option (List Char) :=
  (findSub FINAL_RANKING_MARKER l).map fun i =>
    let tail := l.drop (i + FINAL_RANKING_MARKER.length)
    match findSub FINAL_RANKING_MARKER tail with
    | some j => tail.take j
    | none => tail

/-- The amended C3 algorithm: graceful degradation over the amended tail. -/
def parseRankingAmendedC3 (ranking_text : String) : List String :=
  match markerSection ranking_text.toList with
  | some sec =>
    let numbered := findNumberedMatches sec
    if numbered.isEmpty then findResponseTokens sec
    else numbered.map extractResponseToken
  | none => findResponseTokens ranking_text.toList

/-- Input with two marker occurrences, separating the claimed behaviour from
the implemented one. -/
def c3CounterText : String := "FINAL RANKING: Response A FINAL RANKING:\n1. Response B"

/-- C3 counterexample: on an input containing the marker twice, the code takes
only the segment between the first two occurrences (str.split), not everything
after the first occurrence as the claim states: the code returns
["Response A"] while the claim's algorithm mandates ["Response B"]. -/
theorem parse_ranking_counterexample_C3 :
    parse_ranking_from_text c3CounterText = ["Response A"] ∧
    parseRankingClaimC3 c3CounterText = ["Response B"] ∧
    parse_ranking_from_text c3CounterText ≠ parseRankingClaimC3 c3CounterText := by
  refine ⟨by decide, by decide, by decide⟩

theorem parse_eq_amended (s : String) :
    parse_ranking_from_text s = parseRankingAmendedC3 s := by
  have hm : FINAL_RANKING_MARKER ≠ [] := by decide
  unfold parse_ranking_from_text parseRankingAmendedC3 markerSection
  simp only [String.toList]
  cases hfind : findSub FINAL_RANKING_MARKER s.data with
  | none => simp [hfind]
  | some i =>
    simp only [hfind, Option.isSome_some, if_true, Option.map_some']
    rw [pySplit_eq hm s.data, hfind]
    have hne := pySplit_ne_nil FINAL_RANKING_MARKER
      (s.data.drop (i + FINAL_RANKING_MARKER.length))
    have hlen : 2 ≤ (s.data.take i ::
        pySplit FINAL_RANKING_MARKER
          (s.data.drop (i + FINAL_RANKING_MARKER.length))).length := by
      have := List.length_pos.mpr hne
      simp only [List.length_cons]
      omega
    rw [if_pos hlen]
    dsimp only
    cases hsp : pySplit FINAL_RANKING_MARKER
        (s.data.drop (i + FINAL_RANKING_MARKER.length)) with
    | nil => exact absurd hsp hne
    | cons p ps =>
      have heq := pySplit_eq hm (s.data.drop (i + FINAL_RANKING_MARKER.length))
      rw [hsp] at heq
      cases hfind2 : findSub FINAL_RANKING_MARKER
          (s.data.drop (i + FINAL_RANKING_MARKER.length)) with
      | none =>
        rw [hfind2] at heq
        simp only [List.cons.injEq] at heq
        simp [heq.1]
      | some j =>
        rw [hfind2] at heq
        simp only [List.cons.injEq] at heq
        simp [heq.1]

def c3ExampleText : String :=
  "The answers vary in quality.\nFINAL RANKING:\n1. Response C\n2. Response A\n3. Response B"

/-- C3 (amended): parse_ranking_from_text implements the graceful-degradation
order of the claim with one correction: when the marker is present, the tail
is the segment between the first occurrence of the marker and the next
occurrence (or the end of text), not everything after the first occurrence.
Within that tail, numbered "<number>. Response <letter>" lines are preferred
in document order, else all "Response <letter>" tokens of the tail; with no
marker, all tokens of the whole text. On the claim's concrete example the
parser returns ["Response C", "Response A", "Response B"]. -/
theorem parse_ranking_graceful_degradation_C3 :
    (∀ s, parse_ranking_from_text s = parseRankingAmendedC3 s) ∧
    parse_ranking_from_text c3ExampleText =
      ["Response C", "Response A", "Response B"] :=
  ⟨parse_eq_amended, by decide⟩

/-! ## council.py: calculate_aggregate_rankings

Stage-2 result rows: the fan-out loop builds one dict per member; for the
second fan-out stage the content field is stored under the "ranking" key and a
parsed_ranking field is added. calculate_aggregate_rankings re-parses the raw
ranking text (it does not read parsed_ranking). Python's float mean and
round(x, 2) are modelled on exact rationals with round-half-to-even;
binary-floating-point representation error is not modelled. Python dicts
preserve insertion order; the defaultdict of the source is modelled as an
association list with append-at-first-touch (addPos). list.sort(key=...) is a
stable sort, modelled by insertion sort on the (reflexive, total) key order. -/

structure FanRow where
  model : String
  member_name : String
  persona : String
  content : String
  run_id : String
  model_id : String
deriving DecidableEq, Repr

structure Stage2Row where
  row : FanRow
  parsed_ranking : List String
deriving DecidableEq, Repr

structure AggregateEntry where
  model : String
  average_rank : ℚ
  rankings_count : Nat
deriving DecidableEq, Repr

attribute [local semireducible] Rat.mul Rat.add Rat.sub Rat.inv

/-- Python round() on an exact rational: round-half-to-even. -/
def roundHalfEven (q : ℚ) : ℤ :=
  if q - ⌊q⌋ = 1 / 2 then (if ⌊q⌋ % 2 = 0 then ⌊q⌋ else ⌊q⌋ + 1) else round q

/-- Python round(x, 2). -/
def round2 (q : ℚ) : ℚ := (roundHalfEven (q * 100) : ℚ) / 100

/-- defaultdict(list) accumulation: model_positions[name].append(p), where a
first touch inserts the key at the end (Python dict insertion order). -/
def addPos : List (String × List Nat) → String → Nat → List (String × List Nat)
  | [], name, p => [(name, [p])]
  | (n, ps) :: rest, name, p =>
    if n = name then (n, ps ++ [p]) :: rest
    else (n, ps) :: addPos rest name p

/-- One judge's inner loop: enumerate(parsed_ranking, start=1); positions of
labels present in label_to_model are appended under the mapped identity. -/
def attributeJudge (label_to_model : List (String × String))
    (d : List (String × List Nat)) (parsed : List String) :
    List (String × List Nat) :=
  (List.enumFrom 1 parsed).foldl
    (fun d pl =>
      match label_to_model.lookup pl.2 with
      | some name => addPos d name pl.1
      | none => d) d

def modelPositions (stage2_results : List Stage2Row)
    (label_to_model : List (String × String)) : List (String × List Nat) :=
  stage2_results.foldl
    (fun d r => attributeJudge label_to_model d (parse_ranking_from_text r.row.content)) []

def mkAggregate (d : List (String × List Nat)) : List AggregateEntry :=
  d.filterMap fun np =>
    if np.2.isEmpty then none
    else some ⟨np.1, round2 ((np.2.sum : ℚ) / (np.2.length : ℚ)), np.2.length⟩

/-- Model of calculate_aggregate_rankings (council.py lines 625-649). -/
def calculate_aggregate_rankings (stage2_results : List Stage2Row)
    (label_to_model : List (String × String)) : List AggregateEntry :=
  List.insertionSort (fun a b => a.average_rank ≤ b.average_rank)
    (mkAggregate (modelPositions stage2_results label_to_model))

/-! Specification-side view: the chronological list of (identity, position)
attributions, the positions attributed to one identity, and the encounter
order of identities (order of first attribution). -/

def judgePairs (label_to_model : List (String × String)) (parsed : List String) :
    List (String × Nat) :=
  (List.enumFrom 1 parsed).filterMap fun pl =>
    (label_to_model.lookup pl.2).map fun name => (name, pl.1)

def attributions (stage2_results : List Stage2Row)
    (label_to_model : List (String × String)) : List (String × Nat) :=
  (stage2_results.map fun r =>
    judgePairs label_to_model (parse_ranking_from_text r.row.content)).flatten

def posOfA (A : List (String × Nat)) (name : String) : List Nat :=
  A.filterMap fun a => if a.1 = name then some a.2 else none

/-- Positions attributed to an identity across all judges, in order. -/
def positionsOf (stage2_results : List Stage2Row)
    (label_to_model : List (String × String)) (name : String) : List Nat :=
  posOfA (attributions stage2_results label_to_model) name

def dedupKeepFirst : List String → List String
  | [] => []
  | n :: rest => n :: (dedupKeepFirst rest).filter (· ≠ n)

/-- Identities in order of first attribution. -/
def encounterOrder (A : List (String × Nat)) : List String :=
  dedupKeepFirst (A.map Prod.fst)

theorem mem_dedupKeepFirst {m : String} {L : List String} :
    m ∈ dedupKeepFirst L ↔ m ∈ L := by
  induction L with
  | nil => simp [dedupKeepFirst]
  | cons n rest ih =>
    simp only [dedupKeepFirst, List.mem_cons, List.mem_filter]
    constructor
    · rintro (rfl | ⟨hm, -⟩)
      · exact .inl rfl
      · exact .inr (ih.mp hm)
    · rintro (rfl | hm)
      · exact .inl rfl
      · by_cases hmn : m = n
        · exact .inl hmn
        · exact .inr ⟨ih.mpr hm, by simpa using hmn⟩

theorem dedupKeepFirst_nodup (L : List String) : (dedupKeepFirst L).Nodup := by
  induction L with
  | nil => simp [dedupKeepFirst]
  | cons n rest ih =>
    simp only [dedupKeepFirst, List.nodup_cons]
    refine ⟨?_, ih.filter _⟩
    intro hmem
    have := (List.mem_filter.mp hmem).2
    simp at this

theorem dedupKeepFirst_append_singleton (L : List String) (m : String) :
    dedupKeepFirst (L ++ [m]) =
      if m ∈ L then dedupKeepFirst L else dedupKeepFirst L ++ [m] := by
  induction L with
  | nil => simp [dedupKeepFirst]
  | cons n rest ih =>
    simp only [List.cons_append, dedupKeepFirst, List.append_eq]
    rw [ih]
    by_cases hm : m ∈ rest
    · rw [if_pos hm, if_pos (show m ∈ n :: rest by simp [hm])]
    · rw [if_neg hm]
      by_cases hmn : m = n
      · subst hmn
        rw [if_pos (show m ∈ m :: rest by simp), List.filter_append]
        simp
      · rw [if_neg (show ¬ m ∈ n :: rest by simp [hmn, hm]), List.filter_append]
        simp [hmn]

theorem posOfA_append (A B : List (String × Nat)) (n : String) :
    posOfA (A ++ B) n = posOfA A n ++ posOfA B n := by
  simp [posOfA, List.filterMap_append]

theorem posOfA_singleton (m : String) (p : Nat) (n : String) :
    posOfA [(m, p)] n = if m = n then [p] else [] := by
  by_cases h : m = n <;> simp [posOfA, h]

theorem posOfA_eq_nil_of_not_mem {A : List (String × Nat)} {m : String}
    (h : m ∉ A.map Prod.fst) : posOfA A m = [] := by
  induction A with
  | nil => rfl
  | cons a A' ih =>
    simp only [List.map_cons, List.mem_cons] at h
    push_neg at h
    have h1 : ¬(a.1 = m) := fun hh => h.1 hh.symm
    simp only [posOfA, List.filterMap_cons, if_neg h1]
    simpa [posOfA] using ih h.2

theorem addPos_map (E : List String) (f : String → List Nat) (hnd : E.Nodup)
    (m : String) (p : Nat) :
    addPos (E.map fun n => (n, f n)) m p =
      (E.map fun n => (n, f n ++ if n = m then [p] else [])) ++
        (if m ∈ E then [] else [(m, [p])]) := by
  induction E with
  | nil => simp [addPos]
  | cons n E' ih =>
    simp only [List.map_cons, addPos]
    by_cases hnm : n = m
    · subst hnm
      rw [if_pos rfl]
      have hnotmem : n ∉ E' := (List.nodup_cons.mp hnd).1
      have hmap : E'.map (fun k => (k, f k ++ if k = n then [p] else [])) =
          E'.map fun k => (k, f k) := by
        apply List.map_congr_left
        intro k hk
        have : k ≠ n := fun h => hnotmem (h ▸ hk)
        simp [this]
      simp [List.mem_cons, hmap]
    · rw [if_neg hnm]
      rw [ih (List.nodup_cons.mp hnd).2]
      have hmn : ¬(m = n) := fun h => hnm h.symm
      by_cases hm : m ∈ E'
      · simp [hm, hnm, List.mem_cons, hmn]
      · simp [hm, hnm, List.mem_cons, hmn]

theorem foldl_addPos_char (A : List (String × Nat)) :
    A.foldl (fun d a => addPos d a.1 a.2) [] =
      (encounterOrder A).map fun n => (n, posOfA A n) := by
  induction A using List.reverseRecOn with
  | nil => simp [encounterOrder, dedupKeepFirst, posOfA]
  | append_singleton A x ih =>
    rw [List.foldl_append]
    obtain ⟨m, p⟩ := x
    simp only [List.foldl_cons, List.foldl_nil]
    have hnd : (encounterOrder A).Nodup := dedupKeepFirst_nodup _
    rw [ih, addPos_map (encounterOrder A) (fun n => posOfA A n) hnd m p]
    simp only [encounterOrder, List.map_append, List.map_cons, List.map_nil]
    rw [dedupKeepFirst_append_singleton]
    by_cases hm : m ∈ A.map Prod.fst
    · rw [if_pos hm, if_pos (mem_dedupKeepFirst.mpr hm), List.append_nil]
      apply List.map_congr_left
      intro n hn
      rw [posOfA_append, posOfA_singleton]
      by_cases hnm : n = m
      · subst hnm
        simp
      · have : ¬(m = n) := fun h => hnm h.symm
        simp [hnm, this]
    · rw [if_neg hm, if_neg (fun h => hm (mem_dedupKeepFirst.mp h)), List.map_append]
      congr 1
      · apply List.map_congr_left
        intro n hn
        rw [posOfA_append, posOfA_singleton]
        by_cases hnm : n = m
        · subst hnm
          exact absurd (mem_dedupKeepFirst.mp hn) hm
        · have : ¬(m = n) := fun h => hnm h.symm
          simp [hnm, this]
      · simp only [List.map_cons, List.map_nil]
        rw [posOfA_append, posOfA_eq_nil_of_not_mem hm, posOfA_singleton]
        simp

theorem attributeJudge_foldl (ltm : List (String × String)) :
    ∀ (L : List (Nat × String)) (d : List (String × List Nat)),
      L.foldl (fun d pl =>
        match ltm.lookup pl.2 with
        | some name => addPos d name pl.1
        | none => d) d =
      (L.filterMap fun pl => (ltm.lookup pl.2).map fun name => (name, pl.1)).foldl
        (fun d a => addPos d a.1 a.2) d := by
  intro L
  induction L with
  | nil => intro d; rfl
  | cons pl L' ih =>
    intro d
    simp only [List.foldl_cons, List.filterMap_cons]
    cases h : ltm.lookup pl.2 with
    | none =>
      simp only [h, Option.map_none']
      exact ih d
    | some name =>
      simp only [h, Option.map_some', List.foldl_cons]
      exact ih (addPos d name pl.1)

theorem attributeJudge_eq (ltm : List (String × String)) (parsed : List String)
    (d : List (String × List Nat)) :
    attributeJudge ltm d parsed =
      (judgePairs ltm parsed).foldl (fun d a => addPos d a.1 a.2) d :=
  attributeJudge_foldl ltm (List.enumFrom 1 parsed) d

theorem modelPositions_foldl_eq (ltm : List (String × String)) :
    ∀ (stage2 : List Stage2Row) (d : List (String × List Nat)),
      stage2.foldl
        (fun d r => attributeJudge ltm d (parse_ranking_from_text r.row.content)) d =
      ((stage2.map fun r =>
          judgePairs ltm (parse_ranking_from_text r.row.content)).flatten).foldl
        (fun d a => addPos d a.1 a.2) d := by
  intro stage2
  induction stage2 with
  | nil => intro d; rfl
  | cons r rs ih =>
    intro d
    simp only [List.foldl_cons, List.map_cons, List.flatten_cons, List.foldl_append]
    rw [attributeJudge_eq]
    exact ih _

/-- The defaultdict accumulation equals the direct per-identity grouping, in
encounter order. -/
theorem modelPositions_char (stage2 : List Stage2Row)
    (ltm : List (String × String)) :
    modelPositions stage2 ltm =
      (encounterOrder (attributions stage2 ltm)).map
        fun n => (n, positionsOf stage2 ltm n) := by
  rw [modelPositions, modelPositions_foldl_eq]
  exact foldl_addPos_char _

instance : IsTotal AggregateEntry (fun a b => a.average_rank ≤ b.average_rank) :=
  ⟨fun a b => le_total _ _⟩

instance : IsTrans AggregateEntry (fun a b => a.average_rank ≤ b.average_rank) :=
  ⟨fun _ _ _ hab hbc => le_trans hab hbc⟩

theorem filter_orderedInsert (q : ℚ) (x : AggregateEntry) (l : List AggregateEntry) :
    (List.orderedInsert (fun a b => a.average_rank ≤ b.average_rank) x l).filter
        (fun e => e.average_rank = q) =
      if x.average_rank = q then
        x :: l.filter (fun e => e.average_rank = q)
      else l.filter (fun e => e.average_rank = q) := by
  induction l with
  | nil =>
    simp only [List.orderedInsert, List.filter]
    by_cases hx : x.average_rank = q <;> simp [hx]
  | cons y ys ih =>
    simp only [List.orderedInsert]
    by_cases hr : x.average_rank ≤ y.average_rank
    · rw [if_pos hr]
      by_cases hx : x.average_rank = q <;> by_cases hy : y.average_rank = q <;>
        simp [List.filter_cons, hx, hy]
    · rw [if_neg hr]
      by_cases hx : x.average_rank = q <;> by_cases hy : y.average_rank = q
      · exact absurd (by rw [hx, hy]) hr
      · simp [List.filter_cons, hx, hy, ih]
      · simp [List.filter_cons, hx, hy, ih]
      · simp [List.filter_cons, hx, hy, ih]

theorem filter_insertionSort (q : ℚ) (l : List AggregateEntry) :
    (List.insertionSort (fun a b => a.average_rank ≤ b.average_rank) l).filter
        (fun e => e.average_rank = q) =
      l.filter (fun e => e.average_rank = q) := by
  induction l with
  | nil => rfl
  | cons x xs ih =>
    simp only [List.insertionSort]
    rw [filter_orderedInsert]
    by_cases hx : x.average_rank = q <;> simp [List.filter_cons, hx, ih]

def c4Judges : List Stage2Row :=
  [⟨⟨"J1", "J1", "p", "FINAL RANKING:\n1. Response C\n2. Response A\n3. Response B", "r", "m1"⟩, []⟩,
   ⟨⟨"J2", "J2", "p", "FINAL RANKING:\n1. Response A\n2. Response C\n3. Response B", "r", "m2"⟩, []⟩]

def c4LabelToModel : List (String × String) :=
  [("Response A", "X"), ("Response B", "Y"), ("Response C", "Z")]

/-- C4: calculate_aggregate_rankings attributes each label's 1-indexed position
to the mapped identity, emits one entry per identity with at least one
position, carrying the mean of its positions rounded to two decimals and the
count of positions (= judges ranking it), omits never-ranked identities, and
sorts ascending by mean rank with a stable sort (ties keep encounter order:
elements of equal key appear exactly as in the pre-sort encounter-ordered
list). On the claim's example the means are Z=1.5, X=1.5, Y=3, each count 2,
with the tie in encounter order. -/
theorem calculate_aggregate_rankings_spec_C4 :
    (∀ (stage2 : List Stage2Row) (ltm : List (String × String)),
      List.Pairwise (fun a b => a.average_rank ≤ b.average_rank)
        (calculate_aggregate_rankings stage2 ltm) ∧
      (calculate_aggregate_rankings stage2 ltm).Perm
        (mkAggregate (modelPositions stage2 ltm)) ∧
      (∀ e ∈ calculate_aggregate_rankings stage2 ltm,
        positionsOf stage2 ltm e.model ≠ [] ∧
        e.average_rank =
          round2 (((positionsOf stage2 ltm e.model).sum : ℚ) /
            ((positionsOf stage2 ltm e.model).length : ℚ)) ∧
        e.rankings_count = (positionsOf stage2 ltm e.model).length) ∧
      (∀ name, positionsOf stage2 ltm name = [] →
        ∀ e ∈ calculate_aggregate_rankings stage2 ltm, e.model ≠ name) ∧
      (∀ q, (calculate_aggregate_rankings stage2 ltm).filter
          (fun e => e.average_rank = q) =
        (mkAggregate (modelPositions stage2 ltm)).filter
          (fun e => e.average_rank = q)) ∧
      modelPositions stage2 ltm =
        (encounterOrder (attributions stage2 ltm)).map
          (fun n => (n, positionsOf stage2 ltm n))) ∧
    calculate_aggregate_rankings c4Judges c4LabelToModel =
      [⟨"Z", 3 / 2, 2⟩, ⟨"X", 3 / 2, 2⟩, ⟨"Y", 3, 2⟩] := by
  constructor
  · intro stage2 ltm
    have hmem : ∀ e ∈ calculate_aggregate_rankings stage2 ltm,
        positionsOf stage2 ltm e.model ≠ [] ∧
        e.average_rank =
          round2 (((positionsOf stage2 ltm e.model).sum : ℚ) /
            ((positionsOf stage2 ltm e.model).length : ℚ)) ∧
        e.rankings_count = (positionsOf stage2 ltm e.model).length := by
      intro e he
      have he2 : e ∈ mkAggregate (modelPositions stage2 ltm) :=
        (List.perm_insertionSort _ _).subset he
      rw [modelPositions_char] at he2
      simp only [mkAggregate, List.filterMap_map, List.mem_filterMap,
        Function.comp] at he2
      obtain ⟨n, hn, hcond⟩ := he2
      by_cases hempty : (positionsOf stage2 ltm n).isEmpty
      · rw [if_pos hempty] at hcond
        exact absurd hcond (by simp)
      · rw [if_neg hempty] at hcond
        have hee := Option.some_inj.mp hcond
        subst hee
        have hne : positionsOf stage2 ltm n ≠ [] := by
          simpa [List.isEmpty_iff] using hempty
        exact ⟨hne, rfl, rfl⟩
    refine ⟨?_, (List.perm_insertionSort _ _), hmem, ?_, ?_, modelPositions_char _ _⟩
    · exact List.sorted_insertionSort _ _
    · intro name hnil e he heq
      exact (hmem e he).1 (heq ▸ hnil)
    · intro q
      exact filter_insertionSort q _
  · decide

/-- Witness for C4: instantiating the membership-conditioned clause at the
entry for identity Z of the concrete example. -/
theorem calculate_aggregate_rankings_spec_C4_witness :
    positionsOf c4Judges c4LabelToModel "Z" ≠ [] ∧
    (3 / 2 : ℚ) =
      round2 (((positionsOf c4Judges c4LabelToModel "Z").sum : ℚ) /
        ((positionsOf c4Judges c4LabelToModel "Z").length : ℚ)) ∧
    (2 : Nat) = (positionsOf c4Judges c4LabelToModel "Z").length := by
  have h := (calculate_aggregate_rankings_spec_C4.1 c4Judges c4LabelToModel).2.2.1
    ⟨"Z", 3 / 2, 2⟩ (by decide)
  exact h

/-! ## metadata.py dataclasses and council.py hydration (load_council)

The metadata dataclasses carry the front-matter fields read by the
orchestrator. StageMetadata's response_format / failure_policy /
template_prompt tables are free-form TOML dicts never read by the council.py
orchestrator and are omitted here. The file-backed store (from_file: resolve
kind+id to a parsed document or raise for a missing/invalid file) is modelled
as total lookup functions returning Option; the isinstance checks of
council.py always succeed against this typed store. -/

structure PersonaMetadata where
  id : String
  name : String
  prompt : String
deriving DecidableEq, Repr

structure MemberMetadata where
  id : String
  name : String
  prompt : String
  model_id : String
  persona : String
deriving DecidableEq, Repr

structure ChairmanMetadata where
  id : String
  name : String
  prompt : String
  model_id : String
  persona : String
deriving DecidableEq, Repr

structure CouncilMetadata where
  id : String
  name : String
  prompt : String
  chairman : String
  members : List String
  stages : List String
deriving DecidableEq, Repr

structure StageMetadata where
  id : String
  name : String
  prompt : String
  kind : String := "single"
  purpose : String := ""
  version : String := "1.0"
  inputs_required : List String := []
  inputs_optional : List String := []
deriving DecidableEq, Repr

structure Member where
  id : String
  metadata : MemberMetadata
  persona : PersonaMetadata
deriving DecidableEq, Repr

def Member.name (m : Member) : String := m.metadata.name

def Member.model_id (m : Member) : String := m.metadata.model_id

structure Chairman where
  id : String
  metadata : ChairmanMetadata
  persona : PersonaMetadata
deriving DecidableEq, Repr

def Chairman.name (c : Chairman) : String := c.metadata.name

def Chairman.model_id (c : Chairman) : String := c.metadata.model_id

structure Council where
  id : String
  metadata : CouncilMetadata
  chairman : Chairman
  members : List Member
  stages : List StageMetadata
deriving DecidableEq, Repr

structure MetaStore where
  persona : String → Option PersonaMetadata
  member : String → Option MemberMetadata
  chairman : String → Option ChairmanMetadata
  council : String → Option CouncilMetadata
  stage : String → Option StageMetadata

def load_persona (store : MetaStore) (persona_id : String) :
    Except String PersonaMetadata :=
  match store.persona persona_id with
  | some p => .ok p
  | none => .error ("Missing required file: personas/" ++ persona_id ++ ".md")

def load_member (store : MetaStore) (member_id : String) : Except String Member :=
  match store.member member_id with
  | some m =>
    match load_persona store m.persona with
    | .ok p => .ok ⟨member_id, m, p⟩
    | .error e => .error e
  | none => .error ("Missing required file: members/" ++ member_id ++ ".md")

def load_chairman (store : MetaStore) (chairman_id : String) :
    Except String Chairman :=
  match store.chairman chairman_id with
  | some c =>
    match load_persona store c.persona with
    | .ok p => .ok ⟨chairman_id, c, p⟩
    | .error e => .error e
  | none => .error ("Missing required file: chairmen/" ++ chairman_id ++ ".md")

def load_stage (store : MetaStore) (stage_id : String) :
    Except String StageMetadata :=
  match store.stage stage_id with
  | some s => .ok s
  | none => .error ("Missing required file: stages/" ++ stage_id ++ ".md")

/-- The list comprehension [load(x) for x in ids]: first failure raises. -/
def loadMembers (store : MetaStore) : List String → Except String (List Member)
  | [] => .ok []
  | mid :: rest => do
    let m ← load_member store mid
    let ms ← loadMembers store rest
    .ok (m :: ms)

def loadStages (store : MetaStore) : List String → Except String (List StageMetadata)
  | [] => .ok []
  | sid :: rest => do
    let s ← load_stage store sid
    let ss ← loadStages store rest
    .ok (s :: ss)

/-- Model of load_council (council.py lines 544-553): resolve the council
document, its chairman (with persona), each member in declared order (with
persona), and each stage in declared order. No duplicate-member check is
performed (metadata.py line 454: "Preserve declared order; allow duplicates
only if explicitly intended."). -/
def load_council (store : MetaStore) (council_id : String) :
    Except String Council := do
  match store.council council_id with
  | none => .error ("Missing required file: councils/" ++ council_id ++ ".md")
  | some c => do
    let chairman ← load_chairman store c.chairman
    let members ← loadMembers store c.members
    let stages ← loadStages store c.stages
    .ok ⟨council_id, c, chairman, members, stages⟩

def c9Persona : PersonaMetadata := ⟨"p", "P", "persona prompt"⟩

def c9Member : MemberMetadata := ⟨"m", "M", "", "provider/model-x", "p"⟩

def c9ChairmanMeta : ChairmanMetadata := ⟨"ch", "CH", "", "provider/model-y", "p"⟩

/-- A council declaring the same member id twice. -/
def c9CouncilMeta : CouncilMetadata := ⟨"c", "C", "", "ch", ["m", "m"], []⟩

def c9Store : MetaStore where
  persona := fun i => if i = "p" then some c9Persona else none
  member := fun i => if i = "m" then some c9Member else none
  chairman := fun i => if i = "ch" then some c9ChairmanMeta else none
  council := fun i => if i = "c" then some c9CouncilMeta else none
  stage := fun _ => none

/-- C9 counterexample: hydrating a council whose member list contains the same
id twice succeeds (the member is loaded once per occurrence); it is not a
load-time error as the claim states. -/
theorem load_council_counterexample_C9 :
    c9CouncilMeta.members = ["m", "m"] ∧
    load_council c9Store "c" =
      .ok ⟨"c", c9CouncilMeta, ⟨"ch", c9ChairmanMeta, c9Persona⟩,
        [⟨"m", c9Member, c9Persona⟩, ⟨"m", c9Member, c9Persona⟩], []⟩ := by
  exact ⟨rfl, rfl⟩

theorem load_member_id {store : MetaStore} {mid : String} {m : Member}
    (h : load_member store mid = .ok m) : m.id = mid := by
  unfold load_member at h
  split at h
  · split at h
    · cases h
      rfl
    · cases h
  · cases h

theorem loadMembers_ok (store : MetaStore) :
    ∀ (mids : List String),
      (∀ mid ∈ mids, ∃ m, load_member store mid = .ok m) →
      ∃ ms, loadMembers store mids = .ok ms ∧ ms.map Member.id = mids := by
  intro mids
  induction mids with
  | nil => intro _; exact ⟨[], rfl, rfl⟩
  | cons mid rest ih =>
    intro h
    obtain ⟨m, hm⟩ := h mid (List.mem_cons_self _ _)
    obtain ⟨ms, hms, hids⟩ := ih fun x hx => h x (List.mem_cons_of_mem _ hx)
    refine ⟨m :: ms, ?_, ?_⟩
    · simp only [loadMembers, hm, hms, bind, Except.bind]
    · simp [hids, load_member_id hm]

theorem loadStages_ok (store : MetaStore) :
    ∀ (sids : List String),
      (∀ sid ∈ sids, ∃ s, load_stage store sid = .ok s) →
      ∃ ss, loadStages store sids = .ok ss := by
  intro sids
  induction sids with
  | nil => intro _; exact ⟨[], rfl⟩
  | cons sid rest ih =>
    intro h
    obtain ⟨s, hs⟩ := h sid (List.mem_cons_self _ _)
    obtain ⟨ss, hss⟩ := ih fun x hx => h x (List.mem_cons_of_mem _ hx)
    exact ⟨s :: ss, by simp only [loadStages, hs, hss, bind, Except.bind]⟩

/-- C9 (amended): duplicate member ids in a council definition are NOT a
load-time error: whenever the council document and every referenced chairman,
member, persona and stage resolve, hydration succeeds, loading the duplicated
member once per occurrence and preserving the declared member order. -/
theorem load_council_no_duplicate_check_C9 (store : MetaStore) (cid : String)
    (c : CouncilMetadata) (hc : store.council cid = some c)
    (hch : ∃ ch, load_chairman store c.chairman = .ok ch)
    (hmem : ∀ mid ∈ c.members, ∃ m, load_member store mid = .ok m)
    (hstg : ∀ sid ∈ c.stages, ∃ s, load_stage store sid = .ok s) :
    ∃ council, load_council store cid = .ok council ∧
      council.metadata = c ∧
      council.members.map Member.id = c.members := by
  obtain ⟨ch, hch⟩ := hch
  obtain ⟨ms, hms, hids⟩ := loadMembers_ok store c.members hmem
  obtain ⟨ss, hss⟩ := loadStages_ok store c.stages hstg
  refine ⟨⟨cid, c, ch, ms, ss⟩, ?_, rfl, hids⟩
  simp only [load_council, hc, hch, hms, hss, bind, Except.bind]

/-- Witness for C9 (amended): the duplicate-member store satisfies the
resolution hypotheses and hydration succeeds with member ids ["m", "m"]. -/
theorem load_council_no_duplicate_check_C9_witness :
    ∃ council, load_council c9Store "c" = .ok council ∧
      council.metadata = c9CouncilMeta ∧
      council.members.map Member.id = ["m", "m"] := by
  have h := load_council_no_duplicate_check_C9 c9Store "c" c9CouncilMeta rfl
    ⟨⟨"ch", c9ChairmanMeta, c9Persona⟩, rfl⟩
    (by intro mid hm; refine ⟨⟨"m", c9Member, c9Persona⟩, ?_⟩
        simp only [c9CouncilMeta] at hm
        simp only [List.mem_cons, List.mem_singleton] at hm
        rcases hm with rfl | rfl | h
        · rfl
        · rfl
        · cases h)
    (by intro sid hs; simp [c9CouncilMeta] at hs)
  exact h

/-! ## council.py: _format_template and render_stage_prompt

Python str.format parsing and substitution, modelled closely enough to settle
the template-error claims. The scanner mirrors CPython format-string parsing:
doubled braces are literals, a single closing brace is an error, a field is
name, optional conversion after an exclamation mark, optional spec after a
colon (spec may nest braces). Exact error message texts inside the scanner are
not significant (the wrapper builds its own messages); their error CLASS is.
Literal runs are emitted one piece per character, an inessential regrouping of
the CPython tuples. External pieces of the Python runtime (str() and repr() of
parsed-JSON values, applying a non-empty format spec) are abstract parameters
in PyFormatExt; nested replacement fields inside a format spec are passed to
that abstract function unexpanded. -/

inductive JsonValue where
  | null
  | bool (b : Bool)
  | num (q : ℚ)
  | str (s : String)
  | arr (elems : List JsonValue)
  | obj (fields : List (String × JsonValue))

inductive PyErr where
  | keyError (msg : String)
  | valueError (msg : String)
  | indexError (msg : String)
  | typeError (msg : String)
  | attributeError (msg : String)
  | raised (msg : String)
deriving DecidableEq, Repr

inductive FmtPiece where
  | lit (s : List Char)
  | field (fieldName : List Char) (conv : Option Char) (spec : List Char)
deriving DecidableEq, Repr

/-- Scan a replacement-field name up to a terminator from "!:}" (outside
square brackets); bracketed index keys may contain those characters. -/
def scanFieldName : List Char → Bool → Except String (List Char × List Char)
  | [], _ => .error "Single \x7b encountered in format string"
  | c :: rest, inB =>
    if inB then
      if c = ']' then
        match scanFieldName rest false with
        | .ok (n, r) => .ok (c :: n, r)
        | .error e => .error e
      else if c = '\x7b' then .error "unexpected \x7b in field name"
      else
        match scanFieldName rest true with
        | .ok (n, r) => .ok (c :: n, r)
        | .error e => .error e
    else
      if c = '!' || c = ':' || c = '\x7d' then .ok ([], c :: rest)
      else if c = '\x7b' then .error "unexpected \x7b in field name"
      else if c = '[' then
        match scanFieldName rest true with
        | .ok (n, r) => .ok (c :: n, r)
        | .error e => .error e
      else
        match scanFieldName rest false with
        | .ok (n, r) => .ok (c :: n, r)
        | .error e => .error e

/-- Scan a format spec up to the matching closing brace (braces may nest). -/
def scanSpec : List Char → Nat → Except String (List Char × List Char)
  | [], _ => .error "unmatched \x7b in format spec"
  | c :: rest, depth =>
    if c = '\x7d' then
      if depth = 0 then .ok ([], rest)
      else
        match scanSpec rest (depth - 1) with
        | .ok (s, r) => .ok (c :: s, r)
        | .error e => .error e
    else if c = '\x7b' then
      match scanSpec rest (depth + 1) with
      | .ok (s, r) => .ok (c :: s, r)
      | .error e => .error e
    else
      match scanSpec rest depth with
      | .ok (s, r) => .ok (c :: s, r)
      | .error e => .error e

/-- string.Formatter().parse, fueled by the input length (every piece consumes
at least one character, so the budget is never exhausted before the end). -/
def parseFormatF : Nat → List Char → Except String (List FmtPiece)
  | 0, _ => .ok []
  | _ + 1, [] => .ok []
  | fuel + 1, c :: rest =>
    if c = '\x7d' then
      match rest with
      | d :: rest2 =>
        if d = '\x7d' then
          match parseFormatF fuel rest2 with
          | .ok ps => .ok (.lit ['\x7d'] :: ps)
          | .error e => .error e
        else .error "Single \x7d encountered in format string"
      | [] => .error "Single \x7d encountered in format string"
    else if c = '\x7b' then
      match rest with
      | [] => .error "Single \x7b encountered in format string"
      | d :: rest2 =>
        if d = '\x7b' then
          match parseFormatF fuel rest2 with
          | .ok ps => .ok (.lit ['\x7b'] :: ps)
          | .error e => .error e
        else
          match scanFieldName rest false with
          | .error e => .error e
          | .ok (name, r1) =>
            match r1 with
            | '!' :: r2 =>
              match r2 with
              | [] => .error "end of string while looking for conversion specifier"
              | cv :: r3 =>
                match r3 with
                | '\x7d' :: r4 =>
                  match parseFormatF fuel r4 with
                  | .ok ps => .ok (.field name (some cv) [] :: ps)
                  | .error e => .error e
                | ':' :: r4 =>
                  match scanSpec r4 0 with
                  | .error e => .error e
                  | .ok (spec, r5) =>
                    match parseFormatF fuel r5 with
                    | .ok ps => .ok (.field name (some cv) spec :: ps)
                    | .error e => .error e
                | _ => .error "expected colon after conversion specifier"
            | ':' :: r2 =>
              match scanSpec r2 0 with
              | .error e => .error e
              | .ok (spec, r3) =>
                match parseFormatF fuel r3 with
                | .ok ps => .ok (.field name none spec :: ps)
                | .error e => .error e
            | '\x7d' :: r2 =>
              match parseFormatF fuel r2 with
              | .ok ps => .ok (.field name none [] :: ps)
              | .error e => .error e
            | _ => .error "unterminated replacement field"
    else
      match parseFormatF fuel rest with
      | .ok ps => .ok (.lit [c] :: ps)
      | .error e => .error e

def parseFormat (template : String) : Except String (List FmtPiece) :=
  parseFormatF template.data.length template.data

/-- The root of a field name: the part before the first dot or open bracket
(field_name.split(".", 1)[0].split("[", 1)[0]). -/
def rootOf (fieldName : List Char) : List Char :=
  fieldName.takeWhile fun c => c ≠ '.' && c ≠ '['

/-- Roots referenced by a template; empty field names are skipped (line 166 of
council.py: "if not field_name: continue"). -/
def referencedRoots (pieces : List FmtPiece) : List (List Char) :=
  pieces.filterMap fun p =>
    match p with
    | .lit _ => none
    | .field name _ _ => if name.isEmpty then none else some (rootOf name)

/-- External pieces of the Python string/JSON runtime consumed by rendering:
str() and repr() of parsed-JSON values and application of a non-empty format
spec to a string value. -/
structure PyFormatExt where
  pyStr : JsonValue → String
  pyRepr : JsonValue → String
  formatWithSpec : String → List Char → Except String String

inductive CtxVal where
  | s (v : String)
  | jobj (fields : List (String × JsonValue))

/-- The run's shared context dict (insertion-ordered association list). -/
abbrev Ctx : Type := List (String × CtxVal)

def ctxGet : Ctx → String → Option CtxVal
  | [], _ => none
  | (k, v) :: rest, key => if k = key then some v else ctxGet rest key

def ctxSet : Ctx → String → CtxVal → Ctx
  | [], key, v => [(key, v)]
  | (k, w) :: rest, key, v =>
    if k = key then (k, v) :: rest else (k, w) :: ctxSet rest key v

def ctxKeys (ctx : Ctx) : List String := ctx.map Prod.fst

inductive PyVal where
  | s (v : String)
  | json (v : JsonValue)

def renderVal (ext : PyFormatExt) : PyVal → String
  | .s v => v
  | .json v => ext.pyStr v

/-- repr() of a rendering value; escape sequences inside plain strings are not
modelled. -/
def pyReprVal (ext : PyFormatExt) : PyVal → String
  | .s v => "\x27" ++ v ++ "\x27"
  | .json v => ext.pyRepr v

inductive Accessor where
  | attr (name : List Char)
  | index (key : List Char)
deriving DecidableEq, Repr

/-- formatter_field_name_split: the accessors after the root, ".attr" or
"[key]", fueled by the input length. -/
def parsePathF : Nat → List Char → Except String (List Accessor)
  | 0, _ => .ok []
  | _ + 1, [] => .ok []
  | fuel + 1, c :: rest =>
    if c = '.' then
      let name := rest.takeWhile fun ch => ch ≠ '.' && ch ≠ '['
      if name.isEmpty then .error "Empty attribute in format string"
      else
        match parsePathF fuel (rest.drop name.length) with
        | .ok accs => .ok (.attr name :: accs)
        | .error e => .error e
    else if c = '[' then
      let key := rest.takeWhile fun ch => ch ≠ ']'
      match rest.drop key.length with
      | ']' :: r2 =>
        match parsePathF fuel r2 with
        | .ok accs => .ok (.index key :: accs)
        | .error e => .error e
      | _ => .error "Missing close-bracket in format string"
    else .error "Only attribute and index access allowed in field path"

def parsePath (l : List Char) : Except String (List Accessor) :=
  parsePathF l.length l

def isDigitsKey (l : List Char) : Bool := !l.isEmpty && l.all Char.isDigit

def natOfDigits (l : List Char) : Nat :=
  l.foldl (fun n c => n * 10 + (c.toNat - 48)) 0

def jlookup : List (String × JsonValue) → String → Option JsonValue
  | [], _ => none
  | (k, v) :: rest, key => if k = key then some v else jlookup rest key

/-- One getattr/getitem step of Formatter.get_field. Attribute access on
context values (which are strings or parsed-JSON dicts) is modelled as
AttributeError; real Python would only differ for builtin string/dict method
attributes, which no template uses. -/
def resolveAccessor (ext : PyFormatExt) (v : PyVal) (a : Accessor) :
    Except PyErr PyVal :=
  match a with
  | .attr _ => .error (.attributeError "attribute access on context values is not modelled")
  | .index key =>
    match v with
    | .s str =>
      if isDigitsKey key then
        match str.data.get? (natOfDigits key) with
        | some ch => .ok (.s (String.mk [ch]))
        | none => .error (.indexError "string index out of range")
      else .error (.typeError "string indices must be integers")
    | .json jv =>
      match jv with
      | .obj fields =>
        if isDigitsKey key then .error (.keyError (String.mk key))
        else
          match jlookup fields (String.mk key) with
          | some v2 => .ok (.json v2)
          | none => .error (.keyError (String.mk key))
      | .str str =>
        if isDigitsKey key then
          match str.data.get? (natOfDigits key) with
          | some ch => .ok (.json (.str (String.mk [ch])))
          | none => .error (.indexError "string index out of range")
        else .error (.typeError "string indices must be integers")
      | .arr elems =>
        if isDigitsKey key then
          match elems.get? (natOfDigits key) with
          | some v2 => .ok (.json v2)
          | none => .error (.indexError "list index out of range")
        else .error (.typeError "list indices must be integers")
      | _ => .error (.typeError "value is not subscriptable")

def convertField (ext : PyFormatExt) (v : PyVal) : Option Char → Except PyErr PyVal
  | none => .ok v
  | some c =>
    if c = 's' then .ok (.s (renderVal ext v))
    else if c = 'r' || c = 'a' then .ok (.s (pyReprVal ext v))
    else .error (.valueError ("Unknown conversion specifier " ++ String.mk [c]))

def applySpec (ext : PyFormatExt) (v : PyVal) (spec : List Char) :
    Except PyErr String :=
  if spec.isEmpty then .ok (renderVal ext v)
  else
    match v with
    | .s str =>
      match ext.formatWithSpec str spec with
      | .ok out => .ok out
      | .error e => .error (.valueError e)
    | .json (.str str) =>
      match ext.formatWithSpec str spec with
      | .ok out => .ok out
      | .error e => .error (.valueError e)
    | .json _ => .error (.typeError "unsupported format spec for this value")

def lookupRoot (ctx : Ctx) (root : List Char) : Except PyErr PyVal :=
  match ctxGet ctx (String.mk root) with
  | some (.s v) => .ok (.s v)
  | some (.jobj f) => .ok (.json (.obj f))
  | none => .error (.keyError (String.mk root))

/-- Resolve one replacement field: an empty or all-digits root is a positional
reference, which raises IndexError under format_map with no positional
arguments; otherwise look up the root key and walk the accessor path. -/
def resolveField (ext : PyFormatExt) (ctx : Ctx) (name : List Char) :
    Except PyErr PyVal :=
  let root := rootOf name
  if root.isEmpty || isDigitsKey root then
    .error (.indexError "Replacement index out of range")
  else
    match lookupRoot ctx root with
    | .error e => .error e
    | .ok v =>
      match parsePath (name.drop root.length) with
      | .error e => .error (.valueError e)
      | .ok accs => accs.foldlM (resolveAccessor ext) v

def renderPiece (ext : PyFormatExt) (ctx : Ctx) : FmtPiece → Except PyErr String
  | .lit s => .ok (String.mk s)
  | .field name conv spec =>
    match resolveField ext ctx name with
    | .error e => .error e
    | .ok v =>
      match convertField ext v conv with
      | .error e => .error e
      | .ok v2 => applySpec ext v2 spec

/-- template.format_map(context) over parsed pieces. -/
def formatMap (ext : PyFormatExt) (ctx : Ctx) : List FmtPiece → Except PyErr String
  | [] => .ok ""
  | p :: rest =>
    match renderPiece ext ctx p with
    | .error e => .error e
    | .ok s =>
      match formatMap ext ctx rest with
      | .error e => .error e
      | .ok t => .ok (s ++ t)

def sortStrings (l : List String) : List String :=
  List.insertionSort (fun a b => a ≤ b) l

/-- sorted({k for k in referenced if k not in context}). -/
def missingKeys (pieces : List FmtPiece) (context : Ctx) : List String :=
  sortStrings (dedupKeepFirst
    (((referencedRoots pieces).map String.mk).filter
      fun k => (ctxGet context k).isNone))

def availableKeys (context : Ctx) : String :=
  String.intercalate ", " (sortStrings (ctxKeys context))

def quoteStr (s : String) : String := "\x27" ++ s ++ "\x27"

def reprJoin : List String → String
  | [] => ""
  | [s] => quoteStr s
  | s :: rest => quoteStr s ++ ", " ++ reprJoin rest

/-- Python repr of a list of strings (quote escaping not modelled). -/
def pyReprStrList (l : List String) : String := "[" ++ reprJoin l ++ "]"

/-- Python str.strip(): drop leading and trailing whitespace (ASCII whitespace
set; String.trim of the Lean core is byte-position based and does not reduce
inside the kernel, so the list-based equivalent is used). -/
def pyStrip (s : String) : String :=
  String.mk (((s.data.dropWhile isPySpace).reverse.dropWhile isPySpace).reverse)

/-- Python str.replace("\n", " "): a single-character replacement is a map. -/
def pyReplaceNl (s : String) : String :=
  String.mk (s.data.map fun c => if c = '\n' then ' ' else c)

def optTruthy : Option String → Bool
  | some s => s ≠ ""
  | none => false

def pyOptStr : Option String → String
  | some s => s
  | none => "None"

def wherePart (council_id stage_id : Option String) : String :=
  if optTruthy council_id || optTruthy stage_id then
    "council=\x27" ++ pyOptStr council_id ++ "\x27 stage=\x27" ++
      pyOptStr stage_id ++ "\x27 "
  else ""

def snippetOf (template : String) : String :=
  let s := pyReplaceNl (pyStrip template)
  if 220 < s.length then String.mk (s.data.take 217) ++ "..." else s

/-- Model of _format_template (council.py lines 137-209): empty-template
check, preflight parse with malformed-template ValueError, missing-root
preflight with a KeyError naming the missing keys, the available keys and a
template snippet, then format_map with re-wrapped KeyError/ValueError
(IndexError, TypeError and AttributeError propagate unwrapped). -/
def _format_template (ext : PyFormatExt) (template : String) (context : Ctx)
    (template_label : String) (council_id stage_id : Option String) :
    Except PyErr String :=
  if pyStrip template = "" then
    .error (.valueError ("Template \x27" ++ template_label ++ "\x27 is empty"))
  else
    match parseFormat template with
    | .error e =>
      .error (.valueError ("Malformed template in " ++ template_label ++ " (" ++
        wherePart council_id stage_id ++ "): " ++ e ++
        ". Hint: if you need a literal \x27\x7b\x27 or \x27\x7d\x27, escape it as \x27\x7b\x7b\x27 or \x27\x7d\x7d\x27."))
    | .ok pieces =>
      let missing := missingKeys pieces context
      if missing.isEmpty then
        match formatMap ext context pieces with
        | .ok out => .ok out
        | .error (.keyError k) =>
          .error (.keyError ("Template key error in " ++ template_label ++ " (" ++
            wherePart council_id stage_id ++ "): \x27" ++ k ++
            "\x27. Available keys: [" ++ availableKeys context ++ "]."))
        | .error (.valueError e) =>
          .error (.valueError ("Template format error in " ++ template_label ++
            " (" ++ wherePart council_id stage_id ++ "): " ++ e ++ "."))
        | .error e => .error e
      else
        .error (.keyError ("Missing template keys in " ++ template_label ++ " (" ++
          wherePart council_id stage_id ++ "). Missing: " ++
          pyReprStrList missing ++ ". Available keys: [" ++
          availableKeys context ++ "]. Template snippet: \x27" ++
          snippetOf template ++ "\x27."))

/-- Model of Council.render_stage_prompt (council.py lines 224-242). -/
def render_stage_prompt (ext : PyFormatExt) (c : Council) (stage : StageMetadata)
    (context : Ctx) : Except PyErr String :=
  if pyStrip stage.prompt = "" then
    .error (.valueError ("Stage \x27" ++ stage.id ++ "\x27 has no prompt content"))
  else
    _format_template ext stage.prompt context "stage.prompt" (some c.id) (some stage.id)

/-- The needle occurs as a contiguous substring of the hay. -/
def strContains (needle hay : String) : Prop :=
  ∃ pre post : List Char, hay.data = pre ++ needle.data ++ post

theorem strContains_self (s : String) : strContains s s := ⟨[], [], by simp⟩

theorem strContains_empty (h : String) : strContains "" h := ⟨[], h.data, rfl⟩

theorem strContains_appendL (t : String) {n h : String} (hc : strContains n h) :
    strContains n (t ++ h) := by
  obtain ⟨p, q, hq⟩ := hc
  exact ⟨t.data ++ p, q, by simp [hq]⟩

theorem strContains_appendR (t : String) {n h : String} (hc : strContains n h) :
    strContains n (h ++ t) := by
  obtain ⟨p, q, hq⟩ := hc
  exact ⟨p, q ++ t.data, by simp [hq]⟩

theorem strContains_quoteStr (k : String) : strContains k (quoteStr k) :=
  strContains_appendR _ (strContains_appendL _ (strContains_self k))

theorem strContains_reprJoin {k : String} :
    ∀ {l : List String}, k ∈ l → strContains k (reprJoin l) := by
  intro l
  induction l with
  | nil => intro h; cases h
  | cons s rest ih =>
    intro hk
    cases rest with
    | nil =>
      have hks : k = s := by simpa using hk
      subst hks
      exact strContains_quoteStr k
    | cons s2 rest2 =>
      rcases List.mem_cons.mp hk with rfl | hk2
      · exact strContains_appendR _ (strContains_appendR _ (strContains_quoteStr k))
      · exact strContains_appendL _ (ih hk2)

theorem strContains_pyReprStrList {k : String} {l : List String} (hk : k ∈ l) :
    strContains k (pyReprStrList l) :=
  strContains_appendR _ (strContains_appendL _ (strContains_reprJoin hk))

theorem strContains_wherePart (cid : Option String) (sid : String) :
    strContains sid (wherePart cid (some sid)) := by
  by_cases hsid : sid = ""
  · subst hsid
    exact strContains_empty _
  · unfold wherePart
    rw [if_pos (by simp [optTruthy, hsid])]
    exact strContains_appendR _ (strContains_appendL _ (strContains_self sid))

/-- C8: rendering a flat-string stage template fails before any substitution
when a placeholder root is missing from the context, with a KeyError whose
message names every missing key, the stage id and a snippet of the template
(never returning a silently substituted string); a malformed template
(unbalanced braces) instead fails with a distinct malformed-template
ValueError, never a missing-key KeyError. -/
theorem render_stage_prompt_spec_C8 (ext : PyFormatExt) (c : Council)
    (stage : StageMetadata) (context : Ctx) (hne : ¬pyStrip stage.prompt = "") :
    (∀ pieces, parseFormat stage.prompt = .ok pieces →
      missingKeys pieces context ≠ [] →
      ∃ msg, render_stage_prompt ext c stage context = .error (.keyError msg) ∧
        (∀ k ∈ missingKeys pieces context, strContains k msg) ∧
        strContains stage.id msg ∧
        strContains (snippetOf stage.prompt) msg ∧
        ∀ out, render_stage_prompt ext c stage context ≠ .ok out) ∧
    (∀ e, parseFormat stage.prompt = .error e →
      ∃ msg, render_stage_prompt ext c stage context = .error (.valueError msg) ∧
        strContains "Malformed template" msg ∧
        ∀ m, render_stage_prompt ext c stage context ≠ .error (.keyError m)) := by
  constructor
  · intro pieces hp hmiss
    have hrender : render_stage_prompt ext c stage context =
        .error (.keyError ("Missing template keys in " ++ "stage.prompt" ++ " (" ++
          wherePart (some c.id) (some stage.id) ++ "). Missing: " ++
          pyReprStrList (missingKeys pieces context) ++ ". Available keys: [" ++
          availableKeys context ++ "]. Template snippet: \x27" ++
          snippetOf stage.prompt ++ "\x27.")) := by
      unfold render_stage_prompt _format_template
      rw [if_neg hne, if_neg hne, hp]
      have hie : (missingKeys pieces context).isEmpty = false := by
        simpa [List.isEmpty_iff] using hmiss
      simp only [hie, Bool.false_eq_true, if_false]
    refine ⟨_, hrender, ?_, ?_, ?_, by simp [hrender]⟩
    · intro k hk
      exact strContains_appendR _ (strContains_appendR _ (strContains_appendR _
        (strContains_appendR _ (strContains_appendR _ (strContains_appendL _
          (strContains_pyReprStrList hk))))))
    · exact strContains_appendR _ (strContains_appendR _ (strContains_appendR _
        (strContains_appendR _ (strContains_appendR _ (strContains_appendR _
          (strContains_appendR _ (strContains_appendL _
            (strContains_wherePart (some c.id) stage.id))))))))
    · exact strContains_appendR _ (strContains_appendL _ (strContains_self _))
  · intro e hp
    have hrender : render_stage_prompt ext c stage context =
        .error (.valueError ("Malformed template in " ++ "stage.prompt" ++ " (" ++
          wherePart (some c.id) (some stage.id) ++ "): " ++ e ++
          ". Hint: if you need a literal \x27\x7b\x27 or \x27\x7d\x27, escape it as \x27\x7b\x7b\x27 or \x27\x7d\x7d\x27.")) := by
      unfold render_stage_prompt _format_template
      rw [if_neg hne, if_neg hne, hp]
    refine ⟨_, hrender, ?_, by simp [hrender]⟩
    have hbase : strContains "Malformed template" "Malformed template in " :=
      ⟨[], " in ".data, by decide⟩
    exact strContains_appendR _ (strContains_appendR _ (strContains_appendR _
      (strContains_appendR _ (strContains_appendR _ (strContains_appendR _ hbase)))))

def c8Council : Council :=
  ⟨"demo", ⟨"demo", "Demo", "", "ch", [], []⟩,
    ⟨"ch", c9ChairmanMeta, c9Persona⟩, [], []⟩

def c8StageMissing : StageMetadata :=
  { id := "panel-stage", name := "Panel", prompt := "\x7buser_query\x7d \x7bmissing_key\x7d" }

def c8StageBad : StageMetadata :=
  { id := "bad-stage", name := "Bad", prompt := "unbalanced \x7b" }

def c8Ext : PyFormatExt := ⟨fun _ => "", fun _ => "", fun s _ => .ok s⟩

def c8Ctx : Ctx := [("user_query", .s "hi")]

/-- Witness for C8: a template referencing an absent key fails with a KeyError
naming the key and the stage id; an unbalanced-brace template fails with the
distinct malformed-template ValueError. -/
theorem render_stage_prompt_spec_C8_witness :
    (∃ msg, render_stage_prompt c8Ext c8Council c8StageMissing c8Ctx =
        .error (.keyError msg) ∧
      strContains "missing_key" msg ∧ strContains "panel-stage" msg) ∧
    (∃ msg, render_stage_prompt c8Ext c8Council c8StageBad c8Ctx =
        .error (.valueError msg) ∧
      strContains "Malformed template" msg) := by
  constructor
  · have hp : parseFormat c8StageMissing.prompt =
        .ok [.field "user_query".data none [], .lit [' '],
          .field "missing_key".data none []] := rfl
    obtain ⟨msg, h1, h2, h3, -, -⟩ :=
      (render_stage_prompt_spec_C8 c8Ext c8Council c8StageMissing c8Ctx
        (by decide)).1 _ hp (by decide)
    exact ⟨msg, h1, h2 "missing_key" (by decide), h3⟩
  · have hp : parseFormat c8StageBad.prompt =
        .error "Single \x7b encountered in format string" := rfl
    obtain ⟨msg, h1, h2, -⟩ :=
      (render_stage_prompt_spec_C8 c8Ext c8Council c8StageBad c8Ctx
        (by decide)).2 _ hp
    exact ⟨msg, h1, h2⟩

/-! ## council.py: Council.run and run_full_council

The concurrent fan-out is modelled by giving every dispatched task an abstract
behaviour: it either completes at some wall-clock time (raising an exception,
returning None, or returning a content string) or never completes.
asyncio.wait(tasks, timeout=w) puts a task in the done set exactly when its
completion time is within w; completion ORDER has no other effect, which is
what the determinism claims quantify over. A dict payload is modelled as its
content string (a dict whose content field is null is not modelled). log_event
is modelled by accumulating the state-relevant events (stage timeout with the
pending members, per-task errors, chairman timeout); purely informational
events (run start/done) are not tracked. The json module and uuid are
abstract parameters of RunEnv. -/

inductive CallOutcome where
  | completes (finish : ℚ) (result : Except String (Option String))
  | hangs

structure RunEnv where
  ext : PyFormatExt
  fanout : Nat → Member → List (String × String) → CallOutcome
  chair : Nat → List (String × String) → CallOutcome
  jsonParse : String → Option JsonValue
  jsonDumps : List (String × JsonValue) → String
  genRunId : String

def STAGE1_WALL_TIMEOUT_S : ℚ := 45

def STAGE2_WALL_TIMEOUT_S : ℚ := 60

def STAGE3_WALL_TIMEOUT_S : ℚ := 120

def _build_messages_simple (user_text : String) (system_text : String) :
    List (String × String) :=
  (if system_text ≠ "" then [("system", system_text)] else []) ++
    [("user", user_text)]

structure Row3 where
  model : String
  member_name : String
  persona : String
  response : String
  model_id : String
  chairman_model_id : String
deriving DecidableEq, Repr

inductive Event where
  | stageTimeout (stage_id : String) (wall_timeout_s : ℚ)
      (pending : List (String × String))
  | taskError (stage_id member_id member_name model_id err : String)
  | chairTimeout (stage_id chairman_model_id : String)
deriving DecidableEq, Repr

structure RunState where
  ctx : Ctx
  s1 : List FanRow
  s2 : List Stage2Row
  s3 : Option Row3
  fanoutSeen : Nat
  chairmanSeen : Nat
  events : List Event

/-- persona prompt + optional member/chairman addendum, both stripped. -/
def systemTextOf (personaPromptStr addendumStr : String) : String :=
  let p := pyStrip personaPromptStr
  let a := pyStrip addendumStr
  if a ≠ "" then pyStrip (p ++ "\n\n" ++ a) else p

def doneWithin (wall : ℚ) : CallOutcome → Bool
  | .completes f _ => decide (f ≤ wall)
  | .hangs => false

/-- The fan-out dispatch loop (first for-loop of the fanout branch): per member
set persona_prompt in the shared context, render the stage prompt (a render
error aborts the run), build messages and create the task. -/
def dispatchMembers (env : RunEnv) (c : Council) (stage : StageMetadata)
    (occurrence : Nat) : Ctx → List Member →
      Except PyErr (List (Member × CallOutcome) × Ctx)
  | ctx, [] => .ok ([], ctx)
  | ctx, m :: rest =>
    let system_text := systemTextOf m.persona.prompt m.metadata.prompt
    let ctx2 := ctxSet ctx "persona_prompt" (.s system_text)
    match render_stage_prompt env.ext c stage ctx2 with
    | .error e => .error e
    | .ok prompt =>
      let messages := _build_messages_simple prompt system_text
      match dispatchMembers env c stage occurrence ctx2 rest with
      | .error e => .error e
      | .ok (tasks, ctx3) => .ok ((m, env.fanout occurrence m messages) :: tasks, ctx3)

/-- The pending/cancel loop: members whose task is not done at the deadline,
as (member_name, model_id) pairs; these tasks are also the cancelled ones. -/
def pendingMembersOf (wall : ℚ) (tasks : List (Member × CallOutcome)) :
    List (String × String) :=
  tasks.filterMap fun mt =>
    if doneWithin wall mt.2 then none else some (mt.1.name, mt.1.model_id)

/-- The results loop: tasks in the done set contribute a row unless
t.result() raised (then a task_error event is logged and the member is
skipped); a completed call that returned None contributes a row with empty
content. -/
def collectResults (run_id : String) (stage : StageMetadata) (wall : ℚ) :
    List (Member × CallOutcome) → List FanRow × List Event
  | [] => ([], [])
  | (m, t) :: rest =>
    let (rows, evs) := collectResults run_id stage wall rest
    match t with
    | .completes f res =>
      if f ≤ wall then
        match res with
        | .error e => (rows, .taskError stage.id m.id m.name m.model_id e :: evs)
        | .ok payload =>
          ({ model := m.name, member_name := m.name, persona := m.persona.name,
             content := payload.getD "", run_id := run_id,
             model_id := m.model_id } :: rows, evs)
      else (rows, evs)
    | .hangs => (rows, evs)

def memberLabelText (name model : String) (fallback : String) : String :=
  if name ≠ "" then name else if model ≠ "" then model else fallback

def _format_stage1_text (rows : List FanRow) : String :=
  pyStrip (String.intercalate "\n"
    (((List.enumFrom 1 rows).map fun ir =>
      ["Member " ++ toString ir.1 ++ ": " ++
         memberLabelText ir.2.member_name ir.2.model "member",
       ir.2.content, ""]).flatten))

def _format_stage2_text (rows : List Stage2Row) : String :=
  pyStrip (String.intercalate "\n"
    (((List.enumFrom 1 rows).map fun ir =>
      ["Judge " ++ toString ir.1 ++ ": " ++
         memberLabelText ir.2.row.member_name ir.2.row.model "judge",
       ir.2.row.content, ""]).flatten))

/-- "{member_name}\n{content}" rows joined with blank lines (responses_text
and rankings_text). -/
def joinRows (rows : List FanRow) : String :=
  String.intercalate "\n\n" (rows.map fun r => r.member_name ++ "\n" ++ r.content)

def _refresh_stage_context (ctx : Ctx) : Ctx :=
  let part1 : List String :=
    match ctxGet ctx "stage1_text" with
    | some (.s t) => if t ≠ "" then ["## Stage 1 â€“ Member Responses\n" ++ t] else []
    | _ => []
  let part2 : List String :=
    match ctxGet ctx "stage2_text" with
    | some (.s t) => if t ≠ "" then ["## Stage 2 â€“ Peer Rankings\n" ++ t] else []
    | _ => []
  ctxSet ctx "stage_context" (.s (pyStrip (String.intercalate "\n\n" (part1 ++ part2))))

/-- One fanout stage (council.py lines 333-414) against dispatched tasks. -/
def runFanoutStage (env : RunEnv) (c : Council) (stage : StageMetadata)
    (run_id : String) (st : RunState) (fanout_seen : Nat) :
    Except PyErr RunState :=
  let wall := if fanout_seen = 1 then STAGE1_WALL_TIMEOUT_S else STAGE2_WALL_TIMEOUT_S
  match dispatchMembers env c stage fanout_seen st.ctx c.members with
  | .error e => .error e
  | .ok (tasks, ctx2) =>
    let pending := pendingMembersOf wall tasks
    let evs1 := if pending.isEmpty then [] else [Event.stageTimeout stage.id wall pending]
    let rowsEvs := collectResults run_id stage wall tasks
    let results := rowsEvs.1
    if fanout_seen = 1 then
      let ctx3 := ctxSet (ctxSet ctx2 "responses_text" (.s (joinRows results)))
        "stage1_text" (.s (_format_stage1_text results))
      .ok { st with
        ctx := _refresh_stage_context ctx3
        s1 := results
        fanoutSeen := fanout_seen
        events := st.events ++ evs1 ++ rowsEvs.2 }
    else
      let s2 := results.map fun r => Stage2Row.mk r (parse_ranking_from_text r.content)
      let ctx3 := ctxSet (ctxSet ctx2 "rankings_text" (.s (joinRows results)))
        "stage2_text" (.s (_format_stage2_text s2))
      .ok { st with
        ctx := _refresh_stage_context ctx3
        s2 := s2
        fanoutSeen := fanout_seen
        events := st.events ++ evs1 ++ rowsEvs.2 }

def chairRow (c : Council) (response : String) : Row3 :=
  { model := c.chairman.name, member_name := c.chairman.name,
    persona := c.chairman.persona.name, response := response,
    model_id := c.chairman.model_id, chairman_model_id := c.chairman.model_id }

/-- Council.run._parse_json: json.loads wrapped so that a parse failure or a
non-object value yields the empty dict. -/
def _parse_json (p : String → Option JsonValue) (content : String) :
    List (String × JsonValue) :=
  match p content with
  | some (.obj fields) => fields
  | _ => []

def chairSystemText (c : Council) : String :=
  systemTextOf c.chairman.persona.prompt c.chairman.metadata.prompt

/-- asyncio.wait_for(query, STAGE3_WALL_TIMEOUT_S): a timely exception
propagates; timeout yields r = None plus a timeout event. -/
def chairCallResult (env : RunEnv) (c : Council) (stage : StageMetadata)
    (chairman_seen : Nat) (messages : List (String × String)) :
    Except PyErr (Option String × List Event) :=
  match env.chair chairman_seen messages with
  | .completes f res =>
    if f ≤ STAGE3_WALL_TIMEOUT_S then
      match res with
      | .error e => .error (.raised e)
      | .ok payload => .ok (payload, [])
    else .ok (none, [.chairTimeout stage.id c.chairman.model_id])
  | .hangs => .ok (none, [.chairTimeout stage.id c.chairman.model_id])

/-- One chairman (singleton) stage (council.py lines 416-476); the Bool result
is True when the stage breaks out of the stage loop (the STOP decision). -/
def runChairStage (env : RunEnv) (c : Council) (stage : StageMetadata)
    (st : RunState) (chairman_seen : Nat) : Except PyErr (RunState × Bool) :=
  let system_text := chairSystemText c
  let ctx2 := ctxSet st.ctx "persona_prompt" (.s system_text)
  match render_stage_prompt env.ext c stage ctx2 with
  | .error e => .error e
  | .ok prompt =>
    let messages := _build_messages_simple prompt system_text
    match chairCallResult env c stage chairman_seen messages with
    | .error e => .error e
    | .ok (r, evs) =>
      let content := r.getD ""
      if stage.id = "improve-prompt" then
        let parsed := _parse_json env.jsonParse content
        let ctx3 :=
          match jlookup parsed "improved_query" with
          | some (.str s) =>
            if pyStrip s ≠ "" then ctxSet ctx2 "improved_query" (.s (pyStrip s)) else ctx2
          | _ => ctx2
        .ok ({ st with
          ctx := _refresh_stage_context ctx3
          chairmanSeen := chairman_seen
          events := st.events ++ evs }, false)
      else if stage.id = "validate-council-applicability" then
        let parsed := _parse_json env.jsonParse content
        let ctx3 := ctxSet ctx2 "council_applicability" (.jobj parsed)
        match jlookup parsed "decision" with
        | some (.str d) =>
          if d = "STOP" then
            let pretty := if parsed.isEmpty then content else env.jsonDumps parsed
            .ok ({ st with
              ctx := ctx3
              s3 := some (chairRow c pretty)
              chairmanSeen := chairman_seen
              events := st.events ++ evs }, true)
          else
            .ok ({ st with
              ctx := _refresh_stage_context ctx3
              chairmanSeen := chairman_seen
              events := st.events ++ evs }, false)
        | _ =>
          .ok ({ st with
            ctx := _refresh_stage_context ctx3
            chairmanSeen := chairman_seen
            events := st.events ++ evs }, false)
      else
        let response := if content ≠ "" then content
          else "Error: Unable to generate final synthesis."
        .ok ({ st with
          ctx := _refresh_stage_context ctx2
          s3 := some (chairRow c response)
          chairmanSeen := chairman_seen
          events := st.events ++ evs }, false)

/-- The stage loop of Council.run. -/
def runStages (env : RunEnv) (c : Council) (run_id : String)
    (stagesSet : List Nat) : List StageMetadata → RunState → Except PyErr RunState
  | [], st => .ok st
  | stage :: rest, st =>
    if stage.kind = "fanout_members" then
      let fs := st.fanoutSeen + 1
      if (fs = 1 ∧ 1 ∉ stagesSet) ∨ (fs = 2 ∧ 2 ∉ stagesSet) then
        runStages env c run_id stagesSet rest { st with fanoutSeen := fs }
      else
        match runFanoutStage env c stage run_id st fs with
        | .error e => .error e
        | .ok st2 => runStages env c run_id stagesSet rest st2
    else
      let cs := st.chairmanSeen + 1
      if cs = 1 ∧ 3 ∉ stagesSet then
        runStages env c run_id stagesSet rest { st with chairmanSeen := cs }
      else
        match runChairStage env c stage st cs with
        | .error e => .error e
        | .ok (st2, stop) =>
          if stop then .ok st2
          else runStages env c run_id stagesSet rest st2

def initialCtx (c : Council) (user_query : String) : Ctx :=
  [("user_query", .s user_query),
   ("council_prompt", .s c.metadata.prompt),
   ("stage_context", .s ""),
   ("responses_text", .s ""),
   ("rankings_text", .s ""),
   ("stage1_text", .s ""),
   ("stage2_text", .s "")]

def computeLabels (n : Nat) : List Char :=
  (List.range n).map fun i => Char.ofNat (65 + i)

def displayName (r : FanRow) (label : Char) : String :=
  memberLabelText r.member_name r.model ("Member " ++ String.mk [label])

/-- label_to_model (council.py lines 479-480). -/
def computeLabelToModel (s1 : List FanRow) : List (String × String) :=
  (List.zip (computeLabels s1.length) s1).map fun lr =>
    ("Response " ++ String.mk [lr.1], displayName lr.2 lr.1)

structure RunMeta where
  label_to_model : List (String × String)
  aggregate_rankings : List AggregateEntry
  run_id : String
  council_id : String
deriving DecidableEq, Repr

/-- Model of Council.run (council.py lines 244-503). -/
def councilRun (env : RunEnv) (c : Council) (user_query : String)
    (run_id? : Option String) (stages_to_run : Option (List Nat)) :
    Except PyErr (List FanRow × List Stage2Row × Option Row3 × RunMeta × List Event) :=
  let run_id := run_id?.getD env.genRunId
  let sset :=
    match stages_to_run with
    | none => [1, 2, 3]
    | some l => if l.isEmpty then [1, 2, 3] else l
  match runStages env c run_id sset c.stages
      { ctx := initialCtx c user_query, s1 := [], s2 := [], s3 := none,
        fanoutSeen := 0, chairmanSeen := 0, events := [] } with
  | .error e => .error e
  | .ok st =>
    let ltm := computeLabelToModel st.s1
    let agg := if st.s2.isEmpty then [] else calculate_aggregate_rankings st.s2 ltm
    .ok (st.s1, st.s2, st.s3, ⟨ltm, agg, run_id, c.id⟩, st.events)

inductive FinalResult where
  | ofRow (r : Option Row3)
  | allFailed
deriving DecidableEq, Repr

/-- Model of run_full_council (council.py lines 673-686); allFailed stands for
the literal error dict with model "error" and response "All models failed to
respond. Please try again.". The left error component is a load failure, the
right one an exception escaping Council.run. -/
def run_full_council (env : RunEnv) (store : MetaStore) (user_query : String)
    (council_id : String) :
    Except (String ⊕ PyErr) (List FanRow × List Stage2Row × FinalResult × RunMeta) :=
  match load_council store council_id with
  | .error e => .error (.inl e)
  | .ok c =>
    match councilRun env c user_query none (some [1, 2, 3]) with
    | .error e => .error (.inr e)
    | .ok (s1, s2, s3, meta, _events) =>
      if s1.isEmpty then .ok ([], [], .allFailed, meta)
      else .ok (s1, s2, .ofRow s3, meta)

/-- The view of a task that the results loop depends on: the payload when the
task completed within the deadline without raising, none otherwise. -/
def doneOkPayload (wall : ℚ) : CallOutcome → Option (Option String)
  | .completes f (.ok payload) => if f ≤ wall then some payload else none
  | _ => none

theorem collectResults_rows_cons (run_id : String) (stage : StageMetadata)
    (wall : ℚ) (m : Member) (t : CallOutcome) (rest : List (Member × CallOutcome)) :
    (collectResults run_id stage wall ((m, t) :: rest)).1 =
      (match doneOkPayload wall t with
       | some p => [{ model := m.name, member_name := m.name,
                      persona := m.persona.name, content := p.getD "",
                      run_id := run_id, model_id := m.model_id }]
       | none => []) ++ (collectResults run_id stage wall rest).1 := by
  cases t with
  | hangs => simp [collectResults, doneOkPayload]
  | completes f res =>
    cases res with
    | error e =>
      by_cases h : f ≤ wall <;> simp [collectResults, doneOkPayload, h]
    | ok p =>
      by_cases h : f ≤ wall <;> simp [collectResults, doneOkPayload, h]

/-- The rows of a fanout stage are exactly the done-without-exception tasks,
in task (= declared member) order, with the returned payload (empty content
for a call that returned None). -/
theorem collectResults_char (run_id : String) (stage : StageMetadata) (wall : ℚ) :
    ∀ tasks : List (Member × CallOutcome),
      ((collectResults run_id stage wall tasks).1).map
          (fun r => (r.member_name, r.model_id, r.content)) =
        tasks.filterMap fun mt =>
          (doneOkPayload wall mt.2).map fun p => (mt.1.name, mt.1.model_id, p.getD "") := by
  intro tasks
  induction tasks with
  | nil => rfl
  | cons mt rest ih =>
    obtain ⟨m, t⟩ := mt
    rw [collectResults_rows_cons, List.filterMap_cons]
    cases h : doneOkPayload wall t with
    | none => simpa [h] using ih
    | some p => simp [h, ih, Member.name, Member.model_id]

/-- Task creation preserves the declared member order. -/
theorem dispatchMembers_fst (env : RunEnv) (c : Council) (stage : StageMetadata)
    (occ : Nat) :
    ∀ (members : List Member) (ctx : Ctx) (tasks : List (Member × CallOutcome))
      (ctx2 : Ctx),
      dispatchMembers env c stage occ ctx members = .ok (tasks, ctx2) →
      tasks.map Prod.fst = members := by
  intro members
  induction members with
  | nil =>
    intro ctx tasks ctx2 h
    simp only [dispatchMembers] at h
    cases h
    rfl
  | cons m rest ih =>
    intro ctx tasks ctx2 h
    simp only [dispatchMembers] at h
    split at h
    · cases h
    · split at h
      · cases h
      · rename_i tasks' heq
        cases h
        simp [ih _ _ _ heq]

/-- Positional label assignment, written as the claim reads: labels A, B, C,
... assigned to the rows in their fixed order. -/
def labelMapSpec : Nat → List FanRow → List (String × String)
  | _, [] => []
  | i, r :: rest =>
    ("Response " ++ String.mk [Char.ofNat (65 + i)],
      displayName r (Char.ofNat (65 + i))) :: labelMapSpec (i + 1) rest

theorem computeLabel_aux :
    ∀ (l : List FanRow) (i : Nat),
      (List.zip ((List.range l.length).map fun j => Char.ofNat (65 + (i + j))) l).map
        (fun lr => ("Response " ++ String.mk [lr.1], displayName lr.2 lr.1)) =
      labelMapSpec i l := by
  intro l
  induction l with
  | nil => intro i; rfl
  | cons r rest ih =>
    intro i
    rw [List.length_cons, List.range_succ_eq_map]
    have hcomp : ∀ j, Char.ofNat (65 + (i + (j + 1))) = Char.ofNat (65 + ((i + 1) + j)) := by
      intro j
      congr 1
      omega
    simp only [List.map_cons, List.map_map, List.zip_cons_cons, Nat.add_zero,
      labelMapSpec]
    congr 1
    rw [← ih (i + 1)]
    have harg : (List.range rest.length).map
          ((fun j => Char.ofNat (65 + (i + j))) ∘ Nat.succ) =
        (List.range rest.length).map fun j => Char.ofNat (65 + (i + 1 + j)) := by
      apply List.map_congr_left
      intro j _
      simp only [Function.comp]
      exact hcomp j
    rw [harg]

theorem computeLabelToModel_spec (s1 : List FanRow) :
    computeLabelToModel s1 = labelMapSpec 0 s1 := by
  have harg : (List.range s1.length).map (fun i => Char.ofNat (65 + i)) =
      (List.range s1.length).map fun j => Char.ofNat (65 + (0 + j)) := by
    apply List.map_congr_left
    intro j _
    simp
  unfold computeLabelToModel computeLabels
  rw [harg]
  exact computeLabel_aux s1 0

theorem collectResults_view_invariant (run_id : String) (stage : StageMetadata)
    (wall : ℚ) :
    ∀ (tasks1 tasks2 : List (Member × CallOutcome)),
      List.Forall₂ (fun a b : Member × CallOutcome =>
        a.1 = b.1 ∧ doneOkPayload wall a.2 = doneOkPayload wall b.2) tasks1 tasks2 →
      (collectResults run_id stage wall tasks1).1 =
        (collectResults run_id stage wall tasks2).1 := by
  intro tasks1 tasks2 h
  induction h with
  | nil => rfl
  | cons hab _ ih =>
    rename_i a b l1 l2 _
    obtain ⟨a1, a2⟩ := a
    obtain ⟨b1, b2⟩ := b
    obtain ⟨h1, h2⟩ := hab
    cases h1
    rw [collectResults_rows_cons, collectResults_rows_cons, h2, ih]

/-- The C1 claim's notion of success, following the client contract of the
spec (success with content, or absent for an ordinary failure): a call
completed within the deadline AND returned a result. -/
def membersCompletedSuccessfully (wall : ℚ)
    (tasks : List (Member × CallOutcome)) : List Member :=
  tasks.filterMap fun mt =>
    match mt.2 with
    | .completes f (.ok (some _)) => if f ≤ wall then some mt.1 else none
    | _ => none

def c1Member : Member := ⟨"m1", ⟨"m1", "M1", "", "provider/m1", "p"⟩, c9Persona⟩

def c1Stage : StageMetadata :=
  { id := "collect-responses", name := "Collect", kind := "fanout_members",
    prompt := "\x7buser_query\x7d" }

/-- One member whose call completes returning None (a failed call under the
client contract). -/
def c1Tasks : List (Member × CallOutcome) :=
  [(c1Member, .completes 0 (.ok none))]

/-- C1 counterexample: a call that completed but returned no result (the
client's ordinary-failure value None) still contributes a stage result row
(with empty content), so the stage results are NOT exactly the members whose
calls completed successfully in the client-contract sense. -/
theorem fanout_results_counterexample_C1 :
    ((collectResults "r" c1Stage STAGE1_WALL_TIMEOUT_S c1Tasks).1).map
        FanRow.member_name = ["M1"] ∧
    membersCompletedSuccessfully STAGE1_WALL_TIMEOUT_S c1Tasks = [] ∧
    ((collectResults "r" c1Stage STAGE1_WALL_TIMEOUT_S c1Tasks).1).map
        FanRow.member_name ≠
      (membersCompletedSuccessfully STAGE1_WALL_TIMEOUT_S c1Tasks).map Member.name := by
  refine ⟨rfl, rfl, by decide⟩

/-- C1 (amended): a fanout stage's result list contains exactly the members
whose calls completed within the deadline without raising an exception (a
completed call that returned no result contributes a row with empty content),
in declared member order (task creation preserves member order); the
anonymization labels are "Response A", "Response B", ... assigned positionally
to the rows in that fixed order; and the rows (hence the label map) are
identical for any two executions that agree per member on the
completed-within-deadline payload view, regardless of completion times or
order. -/
theorem fanout_deterministic_order_C1 :
    (∀ (run_id : String) (stage : StageMetadata) (wall : ℚ)
        (tasks : List (Member × CallOutcome)),
      ((collectResults run_id stage wall tasks).1).map
          (fun r => (r.member_name, r.model_id, r.content)) =
        tasks.filterMap fun mt =>
          (doneOkPayload wall mt.2).map fun p => (mt.1.name, mt.1.model_id, p.getD "")) ∧
    (∀ (env : RunEnv) (c : Council) (stage : StageMetadata) (occ : Nat)
        (members : List Member) (ctx : Ctx) (tasks : List (Member × CallOutcome))
        (ctx2 : Ctx),
      dispatchMembers env c stage occ ctx members = .ok (tasks, ctx2) →
      tasks.map Prod.fst = members) ∧
    (∀ s1 : List FanRow, computeLabelToModel s1 = labelMapSpec 0 s1) ∧
    (∀ (run_id : String) (stage : StageMetadata) (wall : ℚ)
        (tasks1 tasks2 : List (Member × CallOutcome)),
      List.Forall₂ (fun a b : Member × CallOutcome =>
        a.1 = b.1 ∧ doneOkPayload wall a.2 = doneOkPayload wall b.2) tasks1 tasks2 →
      (collectResults run_id stage wall tasks1).1 =
        (collectResults run_id stage wall tasks2).1 ∧
      computeLabelToModel (collectResults run_id stage wall tasks1).1 =
        computeLabelToModel (collectResults run_id stage wall tasks2).1) := by
  refine ⟨collectResults_char, dispatchMembers_fst, computeLabelToModel_spec, ?_⟩
  intro run_id stage wall tasks1 tasks2 h
  have heq := collectResults_view_invariant run_id stage wall tasks1 tasks2 h
  exact ⟨heq, by rw [heq]⟩

def c1MemberB : Member := ⟨"m2", ⟨"m2", "M2", "", "provider/m2", "p"⟩, c9Persona⟩

/-- Witness for C1 (amended): two executions in which a different member
finishes first (finish times 10/5 versus 5/44, all within the 45s deadline)
produce identical rows, and the labels are Response A / Response B for the two
rows in declared order. -/
theorem fanout_deterministic_order_C1_witness :
    (collectResults "r" c1Stage STAGE1_WALL_TIMEOUT_S
        [(c1Member, .completes 10 (.ok (some "alpha"))),
         (c1MemberB, .completes 5 (.ok (some "beta")))]).1 =
      (collectResults "r" c1Stage STAGE1_WALL_TIMEOUT_S
        [(c1Member, .completes 5 (.ok (some "alpha"))),
         (c1MemberB, .completes 44 (.ok (some "beta")))]).1 ∧
    computeLabelToModel (collectResults "r" c1Stage STAGE1_WALL_TIMEOUT_S
        [(c1Member, .completes 10 (.ok (some "alpha"))),
         (c1MemberB, .completes 5 (.ok (some "beta")))]).1 =
      [("Response A", "M1"), ("Response B", "M2")] := by
  constructor
  · exact ((fanout_deterministic_order_C1.2.2.2 "r" c1Stage STAGE1_WALL_TIMEOUT_S _ _
      (.cons ⟨rfl, rfl⟩ (.cons ⟨rfl, rfl⟩ .nil))).1)
  · rfl

/-- C2: a member whose call has not completed when the stage deadline expires
is in the pending-members list (these are exactly the cancelled tasks), is
recorded in the stage-timeout observability event of the returned state, and
contributes no row: the stage rows are exactly the completed-without-exception
tasks, and a pending task's view is none; the stage still returns ok,
assigning the rows of the remaining members to the stage's result list. -/
theorem timed_out_member_excluded_C2 (env : RunEnv) (c : Council)
    (stage : StageMetadata) (run_id : String) (st : RunState) (occ : Nat)
    (tasks : List (Member × CallOutcome)) (ctx2 : Ctx) (m : Member)
    (t : CallOutcome) (wall : ℚ)
    (hwall : wall = if occ = 1 then STAGE1_WALL_TIMEOUT_S else STAGE2_WALL_TIMEOUT_S)
    (hdisp : dispatchMembers env c stage occ st.ctx c.members = .ok (tasks, ctx2))
    (hmem : (m, t) ∈ tasks)
    (hpend : doneWithin wall t = false) :
    (m.name, m.model_id) ∈ pendingMembersOf wall tasks ∧
    doneOkPayload wall t = none ∧
    ∃ st2, runFanoutStage env c stage run_id st occ = .ok st2 ∧
      Event.stageTimeout stage.id wall (pendingMembersOf wall tasks) ∈ st2.events ∧
      ((collectResults run_id stage wall tasks).1).map
          (fun r => (r.member_name, r.model_id, r.content)) =
        tasks.filterMap (fun mt =>
          (doneOkPayload wall mt.2).map fun p => (mt.1.name, mt.1.model_id, p.getD "")) ∧
      (occ = 1 → st2.s1 = (collectResults run_id stage wall tasks).1) ∧
      (occ ≠ 1 → st2.s2.map Stage2Row.row = (collectResults run_id stage wall tasks).1) := by
  have hpmem : (m.name, m.model_id) ∈ pendingMembersOf wall tasks := by
    apply List.mem_filterMap.mpr
    exact ⟨(m, t), hmem, by simp [hpend]⟩
  have hview : doneOkPayload wall t = none := by
    cases t with
    | hangs => rfl
    | completes f res =>
      simp only [doneWithin, decide_eq_false_iff_not] at hpend
      cases res with
      | error e => rfl
      | ok p => simp [doneOkPayload, hpend]
  have hne : (pendingMembersOf wall tasks).isEmpty = false := by
    cases hl : pendingMembersOf wall tasks with
    | nil =>
      rw [hl] at hpmem
      cases hpmem
    | cons a l => rfl
  refine ⟨hpmem, hview, ?_⟩
  unfold runFanoutStage
  rw [← hwall, hdisp]
  dsimp only
  by_cases hocc : occ = 1
  · rw [if_pos hocc]
    refine ⟨_, rfl, ?_, collectResults_char run_id stage wall tasks, fun _ => ?_, fun h => absurd hocc h⟩
    · simp only [hne, Bool.false_eq_true, if_false]
      simp [List.mem_append]
    · simp
  · rw [if_neg hocc]
    refine ⟨_, rfl, ?_, collectResults_char run_id stage wall tasks, fun h => absurd h hocc, fun _ => ?_⟩
    · simp only [hne, Bool.false_eq_true, if_false]
      simp [List.mem_append]
    · dsimp only
      rw [List.map_map]
      have hid : (Stage2Row.row ∘ fun r =>
          Stage2Row.mk r (parse_ranking_from_text r.content)) = id := by
        funext r
        rfl
      rw [hid, List.map_id]

def c2MemberHangs : Member := ⟨"m3", ⟨"m3", "M3", "", "provider/m3", "p"⟩, c9Persona⟩

def c2Env : RunEnv :=
  { ext := c8Ext
    fanout := fun _ m _ =>
      if m.id = "m3" then .hangs else .completes 1 (.ok (some "fine"))
    chair := fun _ _ => .completes 0 (.ok (some "final"))
    jsonParse := fun _ => none
    jsonDumps := fun _ => ""
    genRunId := "r" }

def c2Council : Council :=
  ⟨"c2", ⟨"c2", "C2", "", "ch", ["m1", "m3"], ["collect-responses"]⟩,
    ⟨"ch", c9ChairmanMeta, c9Persona⟩, [c1Member, c2MemberHangs], [c1Stage]⟩

def c2State : RunState :=
  { ctx := initialCtx c2Council "q", s1 := [], s2 := [], s3 := none,
    fanoutSeen := 0, chairmanSeen := 0, events := [] }

def c2Tasks : List (Member × CallOutcome) :=
  [(c1Member, .completes 1 (.ok (some "fine"))), (c2MemberHangs, .hangs)]

def c2Ctx2 : Ctx :=
  initialCtx c2Council "q" ++ [("persona_prompt", CtxVal.s "persona prompt")]

/-- Witness for C2: with one responsive member and one hanging member, the
hanging member is pending (and cancelled), appears in the timeout event, and
only the responsive member row reaches the stage results. -/
theorem timed_out_member_excluded_C2_witness :
    dispatchMembers c2Env c2Council c1Stage 1 c2State.ctx c2Council.members =
      .ok (c2Tasks, c2Ctx2) ∧
    ("M3", "provider/m3") ∈ pendingMembersOf STAGE1_WALL_TIMEOUT_S c2Tasks ∧
    ∃ st2, runFanoutStage c2Env c2Council c1Stage "r" c2State 1 = .ok st2 ∧
      Event.stageTimeout "collect-responses" STAGE1_WALL_TIMEOUT_S
        (pendingMembersOf STAGE1_WALL_TIMEOUT_S c2Tasks) ∈ st2.events ∧
      st2.s1.map FanRow.member_name = ["M1"] := by
  have hdisp : dispatchMembers c2Env c2Council c1Stage 1 c2State.ctx
      c2Council.members = .ok (c2Tasks, c2Ctx2) := rfl
  have h := timed_out_member_excluded_C2 c2Env c2Council c1Stage "r" c2State 1
    c2Tasks c2Ctx2 c2MemberHangs .hangs STAGE1_WALL_TIMEOUT_S rfl hdisp
    (List.mem_cons_of_mem _ (List.mem_cons_self _ _)) rfl
  obtain ⟨h1, -, st2, h3, h4, -, h6, -⟩ := h
  refine ⟨hdisp, h1, st2, h3, h4, ?_⟩
  rw [h6 rfl]
  rfl

/-- C6: when the validate-council-applicability singleton stage's call
completes in time with JSON parsing to an object whose decision field is the
string "STOP", the stage loop stops immediately: the run result is independent
of the remaining stage list (rest is arbitrary and absent from the result),
and the final result's response is exactly the parsed JSON pretty-printed
(json.dumps of the parsed object). -/
theorem validate_stop_short_circuits_C6 (env : RunEnv) (c : Council)
    (run_id : String) (sset : List Nat) (stage : StageMetadata)
    (rest : List StageMetadata) (st : RunState) (prompt content : String)
    (f : ℚ) (fields : List (String × JsonValue))
    (hkind : ¬stage.kind = "fanout_members")
    (hid : stage.id = "validate-council-applicability")
    (hguard : ¬(st.chairmanSeen + 1 = 1 ∧ 3 ∉ sset))
    (hrender : render_stage_prompt env.ext c stage
      (ctxSet st.ctx "persona_prompt" (.s (chairSystemText c))) = .ok prompt)
    (hcall : env.chair (st.chairmanSeen + 1)
      (_build_messages_simple prompt (chairSystemText c)) =
        .completes f (.ok (some content)))
    (hf : f ≤ STAGE3_WALL_TIMEOUT_S)
    (hparse : env.jsonParse content = some (.obj fields))
    (hstop : jlookup fields "decision" = some (.str "STOP")) :
    runStages env c run_id sset (stage :: rest) st = .ok
      { st with
        ctx := ctxSet (ctxSet st.ctx "persona_prompt" (.s (chairSystemText c)))
          "council_applicability" (.jobj fields)
        s3 := some (chairRow c (env.jsonDumps fields))
        chairmanSeen := st.chairmanSeen + 1 } ∧
    (chairRow c (env.jsonDumps fields)).response = env.jsonDumps fields := by
  have hfne : fields.isEmpty = false := by
    cases fields with
    | nil => cases hstop
    | cons a l => rfl
  have hidim : ¬stage.id = "improve-prompt" := by
    rw [hid]
    decide
  refine ⟨?_, rfl⟩
  unfold runStages
  rw [if_neg hkind, if_neg hguard]
  unfold runChairStage
  dsimp only
  rw [hrender]
  dsimp only
  unfold chairCallResult
  rw [hcall]
  dsimp only
  rw [if_pos hf]
  dsimp only
  rw [if_neg hidim, if_pos hid]
  unfold _parse_json
  simp only [Option.getD_some]
  rw [hparse]
  dsimp only
  rw [hstop]
  dsimp only
  simp only [hfne, Bool.false_eq_true, if_false, if_pos rfl]
  simp

def c6Stage : StageMetadata :=
  { id := "validate-council-applicability", name := "validate", kind := "single",
    prompt := "\x7buser_query\x7d" }

def c6SynthStage : StageMetadata :=
  { id := "synthesize", name := "synthesize", kind := "single",
    prompt := "\x7bstage_context\x7d x" }

def c6Council : Council :=
  ⟨"c6", ⟨"c6", "C6", "", "ch", [], ["validate-council-applicability", "synthesize"]⟩,
    ⟨"ch", c9ChairmanMeta, c9Persona⟩, [], [c6Stage, c6SynthStage]⟩

def c6Env : RunEnv :=
  { ext := c8Ext
    fanout := fun _ _ _ => .hangs
    chair := fun _ _ => .completes 0 (.ok (some "stopjson"))
    jsonParse := fun s =>
      if s = "stopjson" then some (.obj [("decision", .str "STOP")]) else none
    jsonDumps := fun _ => "PRETTY"
    genRunId := "r" }

def c6State : RunState :=
  { ctx := initialCtx c6Council "hello", s1 := [], s2 := [], s3 := none,
    fanoutSeen := 0, chairmanSeen := 0, events := [] }

/-- Witness for C6: a concrete STOP decision halts the run after the validate
stage with the pretty-printed JSON as the final response. -/
theorem validate_stop_short_circuits_C6_witness :
    ∃ st2, runStages c6Env c6Council "r" [1, 2, 3] [c6Stage, c6SynthStage] c6State =
        .ok st2 ∧ st2.s3 = some (chairRow c6Council "PRETTY") := by
  have h := validate_stop_short_circuits_C6 c6Env c6Council "r" [1, 2, 3] c6Stage
    [c6SynthStage] c6State "hello" "stopjson" 0 [("decision", .str "STOP")]
    (by decide) rfl (by decide) rfl rfl (by decide) rfl rfl
  exact ⟨_, h.1, rfl⟩

/-- C10: singleton-stage post-processing is total over arbitrary model output:
when the parsed content is not a JSON object, _parse_json yields the empty
dict; the improve-prompt stage then injects no improved_query (the context is
only refreshed), the validate stage cannot match the STOP sentinel (the stage
reports continue, storing the empty dict under council_applicability), and in
both cases the stage returns ok rather than an error. -/
theorem malformed_singleton_json_C10 (env : RunEnv) (c : Council)
    (stage : StageMetadata) (st : RunState) (cs : Nat) (prompt : String)
    (f : ℚ) (payload : Option String)
    (hrender : render_stage_prompt env.ext c stage
      (ctxSet st.ctx "persona_prompt" (.s (chairSystemText c))) = .ok prompt)
    (hcall : env.chair cs (_build_messages_simple prompt (chairSystemText c)) =
      .completes f (.ok payload))
    (hf : f ≤ STAGE3_WALL_TIMEOUT_S)
    (hbad : ∀ fields, env.jsonParse (payload.getD "") ≠ some (.obj fields)) :
    _parse_json env.jsonParse (payload.getD "") = [] ∧
    (stage.id = "improve-prompt" →
      runChairStage env c stage st cs = .ok
        ({ st with
           ctx := _refresh_stage_context
             (ctxSet st.ctx "persona_prompt" (.s (chairSystemText c)))
           chairmanSeen := cs }, false)) ∧
    (stage.id = "validate-council-applicability" →
      runChairStage env c stage st cs = .ok
        ({ st with
           ctx := _refresh_stage_context
             (ctxSet (ctxSet st.ctx "persona_prompt" (.s (chairSystemText c)))
               "council_applicability" (.jobj []))
           chairmanSeen := cs }, false)) := by
  have hparse : _parse_json env.jsonParse (payload.getD "") = [] := by
    unfold _parse_json
    cases hp : env.jsonParse (payload.getD "") with
    | none => rfl
    | some v =>
      cases v with
      | obj fields => exact absurd hp (hbad fields)
      | null => rfl
      | bool b => rfl
      | num q => rfl
      | str s => rfl
      | arr elems => rfl
  refine ⟨hparse, ?_, ?_⟩
  · intro hid
    unfold runChairStage
    dsimp only
    rw [hrender]
    dsimp only
    unfold chairCallResult
    rw [hcall]
    dsimp only
    rw [if_pos hf]
    dsimp only
    rw [if_pos hid, hparse]
    simp [jlookup]
  · intro hid
    have hidim : ¬stage.id = "improve-prompt" := by
      rw [hid]
      decide
    unfold runChairStage
    dsimp only
    rw [hrender]
    dsimp only
    unfold chairCallResult
    rw [hcall]
    dsimp only
    rw [if_pos hf]
    dsimp only
    rw [if_neg hidim, if_pos hid, hparse]
    simp [jlookup]

def c10Env : RunEnv :=
  { ext := c8Ext
    fanout := fun _ _ _ => .hangs
    chair := fun _ _ => .completes 0 (.ok (some "this is not json"))
    jsonParse := fun _ => none
    jsonDumps := fun _ => ""
    genRunId := "r" }

def c10Stage : StageMetadata :=
  { id := "validate-council-applicability", name := "validate", kind := "single",
    prompt := "\x7buser_query\x7d" }

def c10State : RunState :=
  { ctx := initialCtx c6Council "hello", s1 := [], s2 := [], s3 := none,
    fanoutSeen := 0, chairmanSeen := 0, events := [] }

/-- Witness for C10: with model output that fails JSON parsing, the validate
stage returns ok and continue (no STOP, no crash). -/
theorem malformed_singleton_json_C10_witness :
    _parse_json c10Env.jsonParse "this is not json" = [] ∧
    ∃ st2, runChairStage c10Env c6Council c10Stage c10State 1 = .ok (st2, false) := by
  have h := malformed_singleton_json_C10 c10Env c6Council c10Stage c10State 1
    "hello" 0 (some "this is not json") rfl rfl (by decide)
    (fun fields h => by cases h)
  exact ⟨h.1, ⟨_, h.2.2 rfl⟩⟩

def c5StageCollect : StageMetadata :=
  { id := "collect", name := "collect", kind := "fanout_members",
    prompt := "\x7buser_query\x7d" }

def c5StageRank : StageMetadata :=
  { id := "rank", name := "rank", kind := "fanout_members",
    prompt := "rank: \x7bresponses_text\x7d" }

def c5StageSynth : StageMetadata :=
  { id := "synth", name := "synth", kind := "single",
    prompt := "syn: \x7bstage_context\x7d \x7buser_query\x7d" }

def c5MemberMeta : MemberMetadata := ⟨"m1", "M1", "", "prov/m1", "p"⟩

def c5CouncilMeta : CouncilMetadata :=
  ⟨"c5", "C5", "", "ch", ["m1"], ["collect", "rank", "synth"]⟩

def c5Store : MetaStore where
  persona := fun i => if i = "p" then some c9Persona else none
  member := fun i => if i = "m1" then some c5MemberMeta else none
  chairman := fun i => if i = "ch" then some c9ChairmanMeta else none
  council := fun i => if i = "c5" then some c5CouncilMeta else none
  stage := fun i =>
    if i = "collect" then some c5StageCollect
    else if i = "rank" then some c5StageRank
    else if i = "synth" then some c5StageSynth
    else none

def c5Council : Council :=
  ⟨"c5", c5CouncilMeta, ⟨"ch", c9ChairmanMeta, c9Persona⟩,
    [⟨"m1", c5MemberMeta, c9Persona⟩],
    [c5StageCollect, c5StageRank, c5StageSynth]⟩

/-- Every panel call raises; the ranking-round calls and the chairman call
succeed. -/
def c5Env : RunEnv :=
  { ext := c8Ext
    fanout := fun occ _ _ =>
      if occ = 1 then .completes 0 (.error "boom")
      else .completes 0 (.ok (some "FINAL RANKING:\n1. Response A"))
    chair := fun _ _ => .completes 0 (.ok (some "final answer"))
    jsonParse := fun _ => none
    jsonDumps := fun _ => ""
    genRunId := "r" }

/-- C5 counterexample: with every panel call failing, the run still proceeds
through the ranking and synthesis stages (the inner run returns a non-empty
ranking list and a synthesis result); run_full_council only discards those
results afterwards, returning the terminal error result with empty lists. So
the claim's "does not proceed through the ranking or synthesis stages" is
false, while the empty-lists error result part holds. -/
theorem run_full_council_counterexample_C5 :
    (∃ s2 s3 meta evs,
      councilRun c5Env c5Council "hello" none (some [1, 2, 3]) =
        .ok ([], s2, s3, meta, evs) ∧ s2 ≠ [] ∧ s3 ≠ none) ∧
    (∃ meta, run_full_council c5Env c5Store "hello" "c5" =
      .ok ([], [], .allFailed, meta)) := by
  constructor
  · exact ⟨_, _, _, _, rfl, by decide, by decide⟩
  · exact ⟨_, rfl⟩

/-- C5 (amended): if the panel stage produced zero results, run_full_council
returns the explicit terminal error result with empty panel and ranking lists
(and otherwise passes the run's results through); the ranking and synthesis
stages still execute inside Council.run and their results are discarded. -/
theorem run_full_council_empty_panel_C5 (env : RunEnv) (store : MetaStore)
    (q cid : String) (c : Council) (s1 : List FanRow) (s2 : List Stage2Row)
    (s3 : Option Row3) (meta : RunMeta) (evs : List Event)
    (hload : load_council store cid = .ok c)
    (hrun : councilRun env c q none (some [1, 2, 3]) = .ok (s1, s2, s3, meta, evs)) :
    (s1 = [] → run_full_council env store q cid = .ok ([], [], .allFailed, meta)) ∧
    (s1 ≠ [] → run_full_council env store q cid = .ok (s1, s2, .ofRow s3, meta)) := by
  unfold run_full_council
  rw [hload]
  dsimp only
  rw [hrun]
  constructor
  · intro h
    subst h
    rfl
  · intro h
    have hie : s1.isEmpty = false := by
      cases s1 with
      | nil => exact absurd rfl h
      | cons a l => rfl
    simp [hie]

/-- Witness for C5 (amended): the concrete all-panel-failures run yields the
terminal error result with empty lists. -/
theorem run_full_council_empty_panel_C5_witness :
    ∃ s2 s3 meta evs,
      councilRun c5Env c5Council "hello" none (some [1, 2, 3]) =
        .ok ([], s2, s3, meta, evs) ∧
      run_full_council c5Env c5Store "hello" "c5" = .ok ([], [], .allFailed, meta) := by
  refine ⟨_, _, _, _, rfl, ?_⟩
  exact (run_full_council_empty_panel_C5 c5Env c5Store "hello" "c5" c5Council
    [] _ _ _ _ rfl rfl).1 rfl

end LlmCouncil
